import Mathlib

/-!
# CineCameraCaptureComponent: deferred scene captures, view states, lens update

A shallow embedding of `CineCameraCaptureComponent.cpp`.

* Objects are referred to by identity (`ObjRef`); a `TWeakObjectPtr` is such an identity, and it
  is valid exactly when the object table still holds an object for it.
* A `float` is read as the rational number it denotes (a finite value). Comparisons and
  `FMath::Max`, which returns one of its arguments, are exact on these. The float operations that
  round (product, quotient, `FMath::FInterpTo`) are not fixed: the component's functions take
  them as the argument `FloatMath`, and the theorems hold for every choice of them.
* An `int32` is an integer. Priorities are only compared. The index arithmetic of `GetViewState`
  is wrapped to the `int32` range, and an array holds at most `MAX_int32` elements.
* Calls into the renderer (`UpdateSceneCaptureContents`, `SendAllEndOfFrameUpdates`) and the
  Blueprint message log are recorded, in program order, in `Engine.Calls`.
* Engine library code that the component calls is not part of the component's sources.
  `TMultiMap`, `TArray` and `FMath::Max` are written out after the engine's definitions;
  `TArray::Sort` is an argument of `UpdateDeferredCaptures`.
-/

namespace CineCapture

/-- Identity of a `UObject` (a world, a capture component, a primitive component). -/
abbrev ObjRef := Nat

/-- A renderer view state, `FSceneViewStateInterface*`, when it is not `NULL`. -/
abbrev Handle := Nat

/-! ## FMath -/

namespace FMath

/-- Engine `FMath::Max(A, B)`: `(A >= B) ? A : B`. -/
def Max (A B : ℚ) : ℚ := if A ≥ B then A else B

end FMath

/-- The `float` operations of the engine that round: the product and the quotient of two floats
and `FMath::FInterpTo(Current, Target, DeltaTime, InterpSpeed)`. None of them is among the
component's sources, so the component's functions take them as an argument. -/
structure FloatMath where
  /-- The `float` product `A * B`. -/
  Mul : ℚ → ℚ → ℚ
  /-- The `float` quotient `A / B`. -/
  Div : ℚ → ℚ → ℚ
  /-- Engine `FMath::FInterpTo(Current, Target, DeltaTime, InterpSpeed)`. -/
  FInterpTo : ℚ → ℚ → ℚ → ℚ → ℚ

/-! ## Data model -/

/-- Engine enumeration `ECameraFocusMethod`. -/
inductive ECameraFocusMethod where
  | None
  | Manual
  | Tracking
  deriving DecidableEq, Repr

/-- Engine enumeration `ESceneCapturePrimitiveRenderMode`. -/
inductive ESceneCapturePrimitiveRenderMode where
  | PRM_LegacySceneCapture
  | PRM_RenderScenePrimitives
  | PRM_UseShowOnlyList
  deriving DecidableEq, Repr

/-- The depth-of-field part of `FPostProcessSettings`. -/
structure FPostProcessSettings where
  bOverride_DepthOfFieldMethod : Bool
  DepthOfFieldMethod : Nat
  bOverride_DepthOfFieldFstop : Bool
  DepthOfFieldFstop : ℚ
  bOverride_DepthOfFieldFocalDistance : Bool
  DepthOfFieldFocalDistance : ℚ
  bOverride_DepthOfFieldSensorWidth : Bool
  DepthOfFieldSensorWidth : ℚ
  deriving DecidableEq, Repr

/-- A `UWorld`, as far as the component reads it. -/
structure UWorld where
  /-- Whether `World->Scene` is not null. -/
  Scene : Bool
  DeltaTimeSeconds : ℚ
  deriving DecidableEq, Repr

/-- A `UCineCameraCaptureComponent`: its own members and the members and query results of
`UCineCameraComponent` that the functions below read. -/
structure UCineCameraCaptureComponent where
  /-- Result of `GetWorld()`; `none` is the null pointer. -/
  World : Option ObjRef
  /-- Result of `IsVisible()`. -/
  Visible : Bool
  bCaptureEveryFrame : Bool
  bCaptureOnMovement : Bool
  bAlwaysPersistRenderingState : Bool
  CaptureSortPriority : Int
  /-- The `TArray<FSceneViewStateReference>`; `none` is a reference holding `NULL`. -/
  ViewStates : List (Option Handle)
  HiddenComponents : List ObjRef
  ShowOnlyComponents : List ObjRef
  /-- Member `FocusSettings.FocusMethod`. -/
  FocusMethod : ECameraFocusMethod
  /-- Member `FocusSettings.bSmoothFocusChanges`. -/
  bSmoothFocusChanges : Bool
  /-- Member `FocusSettings.FocusSmoothingInterpSpeed`. -/
  FocusSmoothingInterpSpeed : ℚ
  /-- Member `LensSettings.MinimumFocusDistance`, in millimetres. -/
  MinimumFocusDistance : ℚ
  /-- Member `FilmbackSettings.SensorWidth`. -/
  SensorWidth : ℚ
  /-- Member `CurrentAperture` as `RecalcDerivedData()` leaves it. -/
  CurrentAperture : ℚ
  /-- What `GetDesiredFocusDistance(GetComponentLocation())` returns. -/
  DesiredFocusDistance : ℚ
  /-- What `GetWorldToMetersScale()` returns. -/
  WorldToMetersScale : ℚ
  CurrentFocusDistance : ℚ
  LastFocusDistance : ℚ
  bResetInterpolation : Bool
  PostProcessSettings : FPostProcessSettings
  CameraLensPostProcessSettings : FPostProcessSettings
  PrimitiveRenderMode : ESceneCapturePrimitiveRenderMode
  deriving DecidableEq, Repr

/-- A call that leaves the component: into the world, the scene or the message log. -/
inductive Call where
  /-- The barrier `World->SendAllEndOfFrameUpdates()`. -/
  | SendAllEndOfFrameUpdates (World : ObjRef)
  /-- The render step `Scene->UpdateSceneCaptureContents(Component)`. -/
  | UpdateSceneCaptureContents (Component : ObjRef)
  /-- The warning `FMessageLog("Blueprint").Warning(...)`. -/
  | Warning
  deriving DecidableEq, Repr

/-! ## TMultiMap -/

/-- A `TMultiMap<TWeakObjectPtr<UWorld>, TWeakObjectPtr<UCineCameraCaptureComponent>>`: its pairs in
the order a key iterator meets them, which is the most recently added pair first (an added pair
is linked at the head of its hash chain). -/
abbrev TMultiMap := List (ObjRef × ObjRef)

namespace TMultiMap

/-- Engine `TMultiMap::Num()`. -/
def Num (m : TMultiMap) : Nat := m.length

/-- Engine `TMultiMap::AddUnique(Key, Value)`: no new association when the pair is already there. -/
def AddUnique (m : TMultiMap) (Key Value : ObjRef) : TMultiMap :=
  if (Key, Value) ∈ m then m else (Key, Value) :: m

/-- Engine `TMultiMap::MultiFind(Key, OutValues)` with `bMaintainOrder` left at `false`: the
values of the key in iteration order. -/
def MultiFind (m : TMultiMap) (Key : ObjRef) : List ObjRef :=
  (m.filter (fun kv => kv.1 == Key)).map Prod.snd

/-- Engine `TMultiMap::Remove(Key)`: every association of the key goes. -/
def Remove (m : TMultiMap) (Key : ObjRef) : TMultiMap :=
  m.filter (fun kv => !(kv.1 == Key))

end TMultiMap

/-! ## Process state -/

/-- The worlds, the live capture components, the static `SceneCapturesToUpdateMap`, and the calls
made so far. -/
structure Engine where
  Worlds : ObjRef → UWorld
  /-- The live components; `none` for a destroyed one, whose weak pointers are then invalid. -/
  Objects : ObjRef → Option UCineCameraCaptureComponent
  SceneCapturesToUpdateMap : TMultiMap
  Calls : List Call

/-- Engine `TWeakObjectPtr::IsValid()`. -/
def IsValid (Objects : ObjRef → Option UCineCameraCaptureComponent) (Ptr : ObjRef) : Bool :=
  (Objects Ptr).isSome

/-! ## The component's functions -/

/-- Source function `UCineCameraCaptureComponent::UpdateCameraLensCapture(float DeltaTime)`. The
inherited `RecalcDerivedData()`, `GetDesiredFocusDistance` and `GetWorldToMetersScale` are not
among the sources; what they deliver is read from `CurrentAperture`, `DesiredFocusDistance` and
`WorldToMetersScale`. -/
def UpdateCameraLensCapture (F : FloatMath) (DeltaTime : ℚ)
    (c : UCineCameraCaptureComponent) : UCineCameraCaptureComponent :=
  let pp := c.PostProcessSettings
  if c.FocusMethod = ECameraFocusMethod.None then
    { c with
      CameraLensPostProcessSettings :=
        { pp with
          bOverride_DepthOfFieldMethod := false
          bOverride_DepthOfFieldFstop := false
          bOverride_DepthOfFieldFocalDistance := false
          bOverride_DepthOfFieldSensorWidth := false }
      bResetInterpolation := false }
  else
    let Desired := c.DesiredFocusDistance
    let MinFocusDistInWorldUnits :=
      F.Mul c.MinimumFocusDistance (F.Div c.WorldToMetersScale 1000)
    let Clamped := FMath.Max Desired MinFocusDistInWorldUnits
    let Current :=
      if c.bSmoothFocusChanges then
        if c.bResetInterpolation = false then
          F.FInterpTo c.LastFocusDistance Clamped DeltaTime c.FocusSmoothingInterpSpeed
        else Clamped
      else Clamped
    { c with
      CurrentFocusDistance := Current
      LastFocusDistance := Current
      CameraLensPostProcessSettings :=
        { pp with
          bOverride_DepthOfFieldMethod := true
          DepthOfFieldMethod := pp.DepthOfFieldMethod
          bOverride_DepthOfFieldFstop := true
          DepthOfFieldFstop := c.CurrentAperture
          bOverride_DepthOfFieldFocalDistance := true
          DepthOfFieldFocalDistance := Current
          bOverride_DepthOfFieldSensorWidth := true
          DepthOfFieldSensorWidth := c.SensorWidth }
      bResetInterpolation := false }

/-- Source function `UCineCameraCaptureComponent::CaptureSceneDeferred()`, called on the component
`This`; a reference that is not live has no member function to run. -/
def CaptureSceneDeferred (F : FloatMath) (This : ObjRef) (e : Engine) : Engine :=
  match e.Objects This with
  | none => e
  | some c =>
    match c.World with
    | none => e
    | some World =>
      if (e.Worlds World).Scene && c.Visible then
        let c' := UpdateCameraLensCapture F (e.Worlds World).DeltaTimeSeconds c
        { e with
          Objects := Function.update e.Objects This (some c')
          SceneCapturesToUpdateMap := e.SceneCapturesToUpdateMap.AddUnique World This }
      else e

/-- Source function `UCineCameraCaptureComponent::CaptureScene()`, called on the component
`This`. -/
def CaptureScene (This : ObjRef) (e : Engine) : Engine :=
  match e.Objects This with
  | none => e
  | some c =>
    let e1 : Engine :=
      match c.World with
      | none => e
      | some World =>
        if (e.Worlds World).Scene && c.Visible then
          { e with
            Calls := e.Calls ++
              [Call.SendAllEndOfFrameUpdates World, Call.UpdateSceneCaptureContents This] }
        else e
    if c.bCaptureEveryFrame then { e1 with Calls := e1.Calls ++ [Call.Warning] } else e1

/-- Source function `UCineCameraCaptureComponent::UpdateSceneCaptureContents(Scene)`: hands the
component to the scene's render step. -/
def UpdateSceneCaptureContents (This : ObjRef) (e : Engine) : Engine :=
  { e with Calls := e.Calls ++ [Call.UpdateSceneCaptureContents This] }

/-- The predicate given to `Sort` in `UpdateDeferredCaptures`. -/
def SortPredicate (Objects : ObjRef → Option UCineCameraCaptureComponent) (A B : ObjRef) : Bool :=
  match Objects A with
  | none => false
  | some a =>
    match Objects B with
    | none => true
    | some b => decide (a.CaptureSortPriority > b.CaptureSortPriority)

/-- Source function `UCineCameraCaptureComponent::UpdateDeferredCaptures(Scene)`; `World` is
`Scene->GetWorld()` and `TArraySort` is the engine's `TArray::Sort`. -/
def UpdateDeferredCaptures (TArraySort : (ObjRef → ObjRef → Bool) → List ObjRef → List ObjRef)
    (World : Option ObjRef) (e : Engine) : Engine :=
  match World with
  | none => e
  | some W =>
    if e.SceneCapturesToUpdateMap.Num = 0 then e
    else
      let CinemaCapturesToUpdate :=
        TArraySort (SortPredicate e.Objects) (e.SceneCapturesToUpdateMap.MultiFind W)
      let e1 := CinemaCapturesToUpdate.foldl
        (fun acc Component =>
          if IsValid acc.Objects Component then UpdateSceneCaptureContents Component acc else acc)
        e
      { e1 with SceneCapturesToUpdateMap := e1.SceneCapturesToUpdateMap.Remove W }

/-- Engine constant `MAX_int32`, the largest `int32`. -/
def MAX_int32 : Int := 2147483647

/-- The `int32` a sum or difference of `int32` values comes out as: the exact result, wrapped
into the range from `-2147483648` to `2147483647`. -/
def WrapInt32 (x : Int) : Int := (x + 2147483648) % 4294967296 - 2147483648

/-- Engine `TArray::AddZeroed(Count)`: `Count` empty references are appended. The array's element
count is an `int32`: a negative `Count`, or one that takes the count past `MAX_int32`, has no
array to produce (`none`). -/
def AddZeroed (ViewStates : List (Option Handle)) (Count : Int) :
    Option (List (Option Handle)) :=
  if Count < 0 ∨ (ViewStates.length : Int) + Count > MAX_int32 then none
  else some (ViewStates ++ List.replicate Count.toNat none)

/-- Source function `UCineCameraCaptureComponent::GetViewState(int32 ViewIndex)`. `Allocated` is
what the renderer's allocator delivers when `Allocate()` is called (`none` for `NULL`). The outer
`none` of the result is a call that does not come back with a result: the growth step has no
array to produce, or `ViewStates[ViewIndex]` is an access outside the array. Otherwise the
result is the returned pointer and the component afterwards. -/
def GetViewState (Allocated : Option Handle) (ViewIndex : Int) (c : UCineCameraCaptureComponent) :
    Option (Option Handle × UCineCameraCaptureComponent) :=
  let Grown :=
    if ViewIndex ≥ c.ViewStates.length then
      AddZeroed c.ViewStates (WrapInt32 (ViewIndex - c.ViewStates.length + 1))
    else some c.ViewStates
  match Grown with
  | none => none
  | some ViewStates =>
    if ViewIndex < 0 then none
    else
      match ViewStates[ViewIndex.toNat]? with
      | none => none
      | some ViewStateInterface =>
        if (c.bCaptureEveryFrame || c.bAlwaysPersistRenderingState) &&
            ViewStateInterface.isNone then
          some (Allocated, { c with ViewStates := ViewStates.set ViewIndex.toNat Allocated })
        else if !c.bCaptureEveryFrame && ViewStateInterface.isSome &&
            !c.bAlwaysPersistRenderingState then
          some (none, { c with ViewStates := ViewStates.set ViewIndex.toNat none })
        else some (ViewStateInterface, { c with ViewStates := ViewStates })

/-! ## Reading the call record -/

/-- The calls made between two states of one run. -/
def NewCalls (before after : Engine) : List Call :=
  after.Calls.drop before.Calls.length

/-- The components handed to the render step between two states, in call order. -/
def Rendered (before after : Engine) : List ObjRef :=
  (NewCalls before after).filterMap fun call =>
    match call with
    | Call.UpdateSceneCaptureContents Component => some Component
    | _ => none

/-! ## TArray::Sort -/

/-- A sort predicate the engine's sorts may be used with: a strict weak ordering. -/
structure StrictWeakOrder {α : Type} (p : α → α → Bool) : Prop where
  irrefl : ∀ a, p a a = false
  trans : ∀ a b c, p a b = true → p b c = true → p a c = true
  incomp_trans : ∀ a b c, p a b = false → p b a = false → p b c = false → p c b = false →
    p a c = false ∧ p c a = false

/-- What `TArray::Sort(Predicate)` promises: the array afterwards holds the same elements, and no
element is followed by one that the predicate puts before it. Nothing is promised about the order
of elements the predicate does not separate (the sort is not stable). -/
def SortsByPredicate (TArraySort : (ObjRef → ObjRef → Bool) → List ObjRef → List ObjRef) : Prop :=
  ∀ p l, StrictWeakOrder p →
    (TArraySort p l).Perm l ∧ (TArraySort p l).Pairwise (fun a b => p b a = false)

/-- The scan of one pass of the engine's sort on a short range, `for (Max = Min, Item = Min + 1;
Item <= Max_; Item++) if (Predicate(*Max, *Item)) Max = Item;`: the index `Max` ends at. -/
def SelectMax {α : Type} (p : α → α → Bool) : α → Nat → Nat → List α → Nat
  | _, MaxIdx, _, [] => MaxIdx
  | Max, MaxIdx, Item, x :: xs =>
    if p Max x then SelectMax p x Item (Item + 1) xs else SelectMax p Max MaxIdx (Item + 1) xs

/-- The engine's sort on a range of at most 8 elements (`Sorting.h`, the branch `Count <= 8`):
`while (Current.Max > Current.Min) { scan; Exchange(*Max, *Current.Max--); }`. The range still
to be sorted is the argument, the elements already moved behind it are appended. The first
argument bounds the number of passes. -/
def SmallSortLoop {α : Type} (p : α → α → Bool) : Nat → List α → List α
  | 0, l => l
  | fuel + 1, l =>
    match l with
    | [] => []
    | x :: xs =>
      let Last := xs.length
      let Max := SelectMax p x 0 1 xs
      match l[Max]?, l[Last]? with
      | some vMax, some vLast => SmallSortLoop p fuel ((l.set Max vLast).take Last) ++ [vMax]
      | _, _ => l

/-- Engine `TArray::Sort(Predicate)` as the engine runs it on an array of at most 8 elements. -/
def SmallSort (p : ObjRef → ObjRef → Bool) (l : List ObjRef) : List ObjRef :=
  SmallSortLoop p l.length l

/-! ## Hidden and show-only components

`HiddenComponents` and `ShowOnlyComponents` are `TArray<TWeakObjectPtr<UPrimitiveComponent>>`.
References are compared by identity. (The engine also takes two invalid weak pointers for equal;
that can only suppress an insertion or remove further entries, and is left out.) -/

namespace TArray

/-- Engine `TArray::Add(Item)`: the item is appended. -/
def Add (a : List ObjRef) (Item : ObjRef) : List ObjRef := a ++ [Item]

/-- Engine `TArray::AddUnique(Item)`: the item is appended unless the array holds it. -/
def AddUnique (a : List ObjRef) (Item : ObjRef) : List ObjRef :=
  if Item ∈ a then a else a ++ [Item]

/-- Engine `TArray::Remove(Item)`: every occurrence of the item goes; a null pointer (`none`)
matches no stored reference. -/
def Remove (a : List ObjRef) (Item : Option ObjRef) : List ObjRef :=
  a.filter (fun x => !(some x == Item))

/-- Engine `TArray::Reset()`. -/
def Reset (_a : List ObjRef) : List ObjRef := []

end TArray

/-- An `AActor`, as far as the component reads it. -/
structure AActor where
  /-- What `GetComponents(PrimitiveComponents)` collects, in order. -/
  PrimitiveComponents : List ObjRef
  deriving DecidableEq, Repr

/-- Source function `UCineCameraCaptureComponent::HideComponent(InComponent)`; `none` is the null
pointer. -/
def HideComponent (InComponent : Option ObjRef) (c : UCineCameraCaptureComponent) :
    UCineCameraCaptureComponent :=
  match InComponent with
  | none => c
  | some Component => { c with HiddenComponents := TArray.AddUnique c.HiddenComponents Component }

/-- Source function `UCineCameraCaptureComponent::HideActorComponents(InActor)`. -/
def HideActorComponents (InActor : Option AActor) (c : UCineCameraCaptureComponent) :
    UCineCameraCaptureComponent :=
  match InActor with
  | none => c
  | some Actor =>
    { c with
      HiddenComponents := Actor.PrimitiveComponents.foldl TArray.AddUnique c.HiddenComponents }

/-- Source function `UCineCameraCaptureComponent::ShowOnlyComponent(InComponent)`. -/
def ShowOnlyComponent (InComponent : Option ObjRef) (c : UCineCameraCaptureComponent) :
    UCineCameraCaptureComponent :=
  match InComponent with
  | none => c
  | some Component =>
    { c with
      PrimitiveRenderMode := ESceneCapturePrimitiveRenderMode.PRM_UseShowOnlyList
      ShowOnlyComponents := TArray.Add c.ShowOnlyComponents Component }

/-- Source function `UCineCameraCaptureComponent::ShowOnlyActorComponents(InActor)`. -/
def ShowOnlyActorComponents (InActor : Option AActor) (c : UCineCameraCaptureComponent) :
    UCineCameraCaptureComponent :=
  match InActor with
  | none => c
  | some Actor =>
    { c with
      PrimitiveRenderMode := ESceneCapturePrimitiveRenderMode.PRM_UseShowOnlyList
      ShowOnlyComponents := Actor.PrimitiveComponents.foldl TArray.Add c.ShowOnlyComponents }

/-- Source function `UCineCameraCaptureComponent::RemoveShowOnlyComponent(InComponent)`. -/
def RemoveShowOnlyComponent (InComponent : Option ObjRef) (c : UCineCameraCaptureComponent) :
    UCineCameraCaptureComponent :=
  { c with ShowOnlyComponents := TArray.Remove c.ShowOnlyComponents InComponent }

/-- Source function `UCineCameraCaptureComponent::RemoveShowOnlyActorComponents(InActor)`. -/
def RemoveShowOnlyActorComponents (InActor : Option AActor) (c : UCineCameraCaptureComponent) :
    UCineCameraCaptureComponent :=
  match InActor with
  | none => c
  | some Actor =>
    { c with
      ShowOnlyComponents :=
        Actor.PrimitiveComponents.foldl (fun a Component => TArray.Remove a (some Component))
          c.ShowOnlyComponents }

/-- Source function `UCineCameraCaptureComponent::ClearShowOnlyComponents(InComponent)`; the
argument is not used. -/
def ClearShowOnlyComponents (_InComponent : Option ObjRef) (c : UCineCameraCaptureComponent) :
    UCineCameraCaptureComponent :=
  { c with ShowOnlyComponents := TArray.Reset c.ShowOnlyComponents }

/-- Source function `UCineCameraCaptureComponent::ClearHiddenComponents()`. -/
def ClearHiddenComponents (c : UCineCameraCaptureComponent) : UCineCameraCaptureComponent :=
  { c with HiddenComponents := TArray.Reset c.HiddenComponents }

/-- One call of the hide / show-only interface of a capture component. -/
inductive VisibilityCall where
  | HideComponent (InComponent : Option ObjRef)
  | HideActorComponents (InActor : Option AActor)
  | ShowOnlyComponent (InComponent : Option ObjRef)
  | ShowOnlyActorComponents (InActor : Option AActor)
  | RemoveShowOnlyComponent (InComponent : Option ObjRef)
  | RemoveShowOnlyActorComponents (InActor : Option AActor)
  | ClearShowOnlyComponents (InComponent : Option ObjRef)
  | ClearHiddenComponents
  deriving DecidableEq, Repr

/-- The component after one call of the hide / show-only interface. -/
def VisibilityCall.run (call : VisibilityCall) (c : UCineCameraCaptureComponent) :
    UCineCameraCaptureComponent :=
  match call with
  | VisibilityCall.HideComponent x => CineCapture.HideComponent x c
  | VisibilityCall.HideActorComponents x => CineCapture.HideActorComponents x c
  | VisibilityCall.ShowOnlyComponent x => CineCapture.ShowOnlyComponent x c
  | VisibilityCall.ShowOnlyActorComponents x => CineCapture.ShowOnlyActorComponents x c
  | VisibilityCall.RemoveShowOnlyComponent x => CineCapture.RemoveShowOnlyComponent x c
  | VisibilityCall.RemoveShowOnlyActorComponents x => CineCapture.RemoveShowOnlyActorComponents x c
  | VisibilityCall.ClearShowOnlyComponents x => CineCapture.ClearShowOnlyComponents x c
  | VisibilityCall.ClearHiddenComponents => CineCapture.ClearHiddenComponents c

/-- The component after a sequence of calls of the hide / show-only interface, first call
first. -/
def RunVisibilityCalls (calls : List VisibilityCall) (c : UCineCameraCaptureComponent) :
    UCineCameraCaptureComponent :=
  calls.foldl (fun acc call => call.run acc) c

/-! ## A small scene

World `0` has a scene. Capture `1` ("A", priority 10) and capture `2` ("B", priority 20) are
live; capture `3` ("C") has been destroyed; captures `4`, `5`, `6` are live with priority 5. -/

/-- A visible capture component of world `0` with the constructor's flags and the given priority. -/
def SampleComponent (Priority : Int) : UCineCameraCaptureComponent :=
  { World := some 0
    Visible := true
    bCaptureEveryFrame := true
    bCaptureOnMovement := true
    bAlwaysPersistRenderingState := false
    CaptureSortPriority := Priority
    ViewStates := []
    HiddenComponents := []
    ShowOnlyComponents := []
    FocusMethod := ECameraFocusMethod.Manual
    bSmoothFocusChanges := true
    FocusSmoothingInterpSpeed := 8
    MinimumFocusDistance := 150
    SensorWidth := 24
    CurrentAperture := 28 / 10
    DesiredFocusDistance := 5
    WorldToMetersScale := 100
    CurrentFocusDistance := 1000
    LastFocusDistance := 1000
    bResetInterpolation := false
    PostProcessSettings := ⟨false, 0, false, 0, false, 0, false, 0⟩
    CameraLensPostProcessSettings := ⟨false, 0, false, 0, false, 0, false, 0⟩
    PrimitiveRenderMode := ESceneCapturePrimitiveRenderMode.PRM_RenderScenePrimitives }

/-- The live components of the small scene. -/
def SampleObjects : ObjRef → Option UCineCameraCaptureComponent
  | 1 => some (SampleComponent 10)
  | 2 => some (SampleComponent 20)
  | 4 => some (SampleComponent 5)
  | 5 => some (SampleComponent 5)
  | 6 => some (SampleComponent 5)
  | _ => none

/-- The small scene with the given registry content and no call made yet. -/
def SampleEngine (Pending : TMultiMap) : Engine :=
  { Worlds := fun _ => { Scene := true, DeltaTimeSeconds := 1 / 60 }
    Objects := SampleObjects
    SceneCapturesToUpdateMap := Pending
    Calls := [] }

/-- Modelled from the spec: `FMath::FInterpTo` is engine code and not among the component's
sources. The spec says of it that the update "exponentially interpolates from
`lastFocusDistance` toward the clamped value at the configured interpolation speed and
`deltaTime`" and "moves only partway toward a new target, strictly between `lastFocusDistance`
and the new clamped target for positive `deltaTime`". This step does so: it covers the fraction
`DeltaTime * InterpSpeed / (1 + DeltaTime * InterpSpeed)` of the distance. It stands in for the
engine's function in the small scene only. -/
def SampleInterpTo (Current Target DeltaTime InterpSpeed : ℚ) : ℚ :=
  Current + (Target - Current) * (DeltaTime * InterpSpeed / (1 + DeltaTime * InterpSpeed))

/-- The float operations of the small scene: exact product and quotient, and `SampleInterpTo`. -/
def SampleFloatMath : FloatMath :=
  { Mul := fun A B => A * B
    Div := fun A B => A / B
    FInterpTo := SampleInterpTo }

/-- The small scene after captures `4`, `5` and `6` (all of priority 5) have requested a deferred
capture, in this order, on an empty registry. -/
def ThreeEqualRequested : Engine :=
  CaptureSceneDeferred SampleFloatMath 6
    (CaptureSceneDeferred SampleFloatMath 5
      (CaptureSceneDeferred SampleFloatMath 4 (SampleEngine [])))

end CineCapture

/-! # Theorems -/

namespace CineCapture

/-! ## The registry -/

theorem count_AddUnique_self (m : TMultiMap) (K V : ObjRef) (h : List.count (K, V) m ≤ 1) :
    List.count (K, V) (m.AddUnique K V) = 1 := by
  unfold TMultiMap.AddUnique
  by_cases hm : (K, V) ∈ m
  · rw [if_pos hm]
    have := List.count_pos_iff.mpr hm
    omega
  · rw [if_neg hm, List.count_cons_self, List.count_eq_zero_of_not_mem hm]

theorem count_eq_one_of_nodup {α : Type} [BEq α] [LawfulBEq α] (a : α) (l : List α)
    (d : l.Nodup) (h : a ∈ l) : List.count a l = 1 := by
  induction l with
  | nil => simp at h
  | cons x xs ih =>
    obtain ⟨hx, hxs⟩ := List.nodup_cons.mp d
    by_cases hax : a = x
    · subst hax
      rw [List.count_cons_self, List.count_eq_zero_of_not_mem hx]
    · have hmem : a ∈ xs := by
        rcases List.mem_cons.mp h with h | h
        · exact absurd h hax
        · exact h
      rw [List.count_cons_of_ne hax, ih hxs hmem]

theorem nodup_AddUnique (m : TMultiMap) (K V : ObjRef) (h : m.Nodup) :
    (m.AddUnique K V).Nodup := by
  unfold TMultiMap.AddUnique
  by_cases hm : (K, V) ∈ m
  · rw [if_pos hm]; exact h
  · rw [if_neg hm]; exact List.nodup_cons.mpr ⟨hm, h⟩

theorem nodup_Remove (m : TMultiMap) (K : ObjRef) (h : m.Nodup) : (m.Remove K).Nodup :=
  h.filter _

theorem MultiFind_Remove (m : TMultiMap) (K : ObjRef) : (m.Remove K).MultiFind K = [] := by
  unfold TMultiMap.MultiFind TMultiMap.Remove
  rw [List.filter_filter]
  simp

theorem count_MultiFind (m : TMultiMap) (K V : ObjRef) :
    List.count V (m.MultiFind K) = List.count (K, V) m := by
  unfold TMultiMap.MultiFind
  induction m with
  | nil => simp
  | cons kv m ih =>
    obtain ⟨k, v⟩ := kv
    by_cases hk : k = K
    · subst hk
      by_cases hv : v = V
      · subst hv; simp [List.filter_cons, ih]
      · have : (k, v) ≠ (k, V) := fun h => hv (Prod.mk.inj h).2
        simp [List.filter_cons, ih, List.count_cons, hv, this]
    · have : (k, v) ≠ (K, V) := fun h => hk (Prod.mk.inj h).1
      simp [List.filter_cons, ih, List.count_cons, hk, this]

/-! ## CaptureSceneDeferred -/

theorem CaptureSceneDeferred_eq (F : FloatMath) (e : Engine) (This W : ObjRef)
    (c : UCineCameraCaptureComponent)
    (hc : e.Objects This = some c) (hW : c.World = some W)
    (hScene : (e.Worlds W).Scene = true) (hVis : c.Visible = true) :
    CaptureSceneDeferred F This e =
      { e with
        Objects := Function.update e.Objects This
          (some (UpdateCameraLensCapture F (e.Worlds W).DeltaTimeSeconds c))
        SceneCapturesToUpdateMap := e.SceneCapturesToUpdateMap.AddUnique W This } := by
  unfold CaptureSceneDeferred
  simp [hc, hW, hScene, hVis]

theorem UpdateCameraLensCapture_World (F : FloatMath) (dt : ℚ)
    (c : UCineCameraCaptureComponent) :
    (UpdateCameraLensCapture F dt c).World = c.World := by
  unfold UpdateCameraLensCapture
  split <;> rfl

theorem UpdateCameraLensCapture_Visible (F : FloatMath) (dt : ℚ)
    (c : UCineCameraCaptureComponent) :
    (UpdateCameraLensCapture F dt c).Visible = c.Visible := by
  unfold UpdateCameraLensCapture
  split <;> rfl

theorem UpdateCameraLensCapture_CaptureSortPriority (F : FloatMath) (dt : ℚ)
    (c : UCineCameraCaptureComponent) :
    (UpdateCameraLensCapture F dt c).CaptureSortPriority = c.CaptureSortPriority := by
  unfold UpdateCameraLensCapture
  split <;> rfl

/-- One deferred request of a registrable capture: the pair is in the registry exactly once
afterwards, nothing is called, and the capture is still registrable. -/
theorem CaptureSceneDeferred_step (F : FloatMath) (e : Engine) (This W : ObjRef)
    (h : ∃ c, e.Objects This = some c ∧ c.World = some W ∧ (e.Worlds W).Scene = true ∧
      c.Visible = true)
    (hCount : List.count (W, This) e.SceneCapturesToUpdateMap ≤ 1) :
    (∃ c, (CaptureSceneDeferred F This e).Objects This = some c ∧ c.World = some W ∧
      ((CaptureSceneDeferred F This e).Worlds W).Scene = true ∧ c.Visible = true) ∧
    List.count (W, This) (CaptureSceneDeferred F This e).SceneCapturesToUpdateMap = 1 ∧
    (CaptureSceneDeferred F This e).Calls = e.Calls := by
  obtain ⟨c, hc, hW, hScene, hVis⟩ := h
  rw [CaptureSceneDeferred_eq F e This W c hc hW hScene hVis]
  refine ⟨⟨UpdateCameraLensCapture F (e.Worlds W).DeltaTimeSeconds c, ?_, ?_, hScene, ?_⟩,
    count_AddUnique_self _ _ _ hCount, rfl⟩
  · simp
  · rw [UpdateCameraLensCapture_World]; exact hW
  · rw [UpdateCameraLensCapture_Visible]; exact hVis

theorem CaptureSceneDeferred_iterate (F : FloatMath) (This W : ObjRef) (N : Nat) (e : Engine)
    (h : ∃ c, e.Objects This = some c ∧ c.World = some W ∧ (e.Worlds W).Scene = true ∧
      c.Visible = true)
    (hCount : List.count (W, This) e.SceneCapturesToUpdateMap ≤ 1) :
    (∃ c, ((CaptureSceneDeferred F This)^[N + 1] e).Objects This = some c) ∧
    List.count (W, This) ((CaptureSceneDeferred F This)^[N + 1] e).SceneCapturesToUpdateMap
      = 1 := by
  induction N generalizing e with
  | zero =>
    obtain ⟨⟨c, hc, _⟩, h1, _⟩ := CaptureSceneDeferred_step F e This W h hCount
    exact ⟨⟨c, hc⟩, h1⟩
  | succ n ih =>
    obtain ⟨h', h1, _⟩ := CaptureSceneDeferred_step F e This W h hCount
    rw [Function.iterate_succ_apply]
    exact ih (CaptureSceneDeferred F This e) h' (le_of_eq h1)

/-! ## UpdateDeferredCaptures -/

theorem renderLoop_eq (l : List ObjRef) (e : Engine) :
    l.foldl (fun acc Component =>
        if IsValid acc.Objects Component then UpdateSceneCaptureContents Component acc else acc) e
      = { e with
          Calls := e.Calls ++ (l.filter (IsValid e.Objects)).map Call.UpdateSceneCaptureContents } := by
  induction l generalizing e with
  | nil => simp
  | cons x xs ih =>
    rw [List.foldl_cons, ih]
    by_cases hx : IsValid e.Objects x = true
    · simp [hx, UpdateSceneCaptureContents, List.filter_cons]
    · simp [hx, List.filter_cons]

theorem UpdateDeferredCaptures_eq
    (TArraySort : (ObjRef → ObjRef → Bool) → List ObjRef → List ObjRef) (W : ObjRef) (e : Engine)
    (hNum : e.SceneCapturesToUpdateMap ≠ []) :
    UpdateDeferredCaptures TArraySort (some W) e =
      { e with
        Calls := e.Calls ++
          ((TArraySort (SortPredicate e.Objects) (e.SceneCapturesToUpdateMap.MultiFind W)).filter
            (IsValid e.Objects)).map Call.UpdateSceneCaptureContents
        SceneCapturesToUpdateMap := e.SceneCapturesToUpdateMap.Remove W } := by
  unfold UpdateDeferredCaptures
  have : ¬ (TMultiMap.Num e.SceneCapturesToUpdateMap = 0) := by
    unfold TMultiMap.Num
    intro h
    exact hNum (List.length_eq_zero.mp h)
  simp only [this, if_false]
  rw [renderLoop_eq]

theorem Rendered_append (before after : Engine) (l : List ObjRef)
    (h : after.Calls = before.Calls ++ l.map Call.UpdateSceneCaptureContents) :
    Rendered before after = l := by
  unfold Rendered NewCalls
  rw [h, List.drop_left]
  clear h
  induction l with
  | nil => rfl
  | cons x xs ih => rw [List.map_cons, List.filterMap_cons]; simp only [ih]

/-- The render order of a flush: the sorted pending captures of the world that are still valid;
nothing when the registry is empty. -/
theorem Rendered_UpdateDeferredCaptures
    (TArraySort : (ObjRef → ObjRef → Bool) → List ObjRef → List ObjRef) (W : ObjRef) (e : Engine) :
    Rendered e (UpdateDeferredCaptures TArraySort (some W) e) =
      if e.SceneCapturesToUpdateMap = [] then []
      else (TArraySort (SortPredicate e.Objects) (e.SceneCapturesToUpdateMap.MultiFind W)).filter
        (IsValid e.Objects) := by
  by_cases hNum : e.SceneCapturesToUpdateMap = []
  · rw [if_pos hNum]
    have : UpdateDeferredCaptures TArraySort (some W) e = e := by
      unfold UpdateDeferredCaptures
      simp [hNum, TMultiMap.Num]
    rw [this]
    exact Rendered_append e e [] (by simp)
  · rw [if_neg hNum]
    apply Rendered_append
    rw [UpdateDeferredCaptures_eq TArraySort W e hNum]

/-! ## The engine's short-range sort meets the promise of `TArray::Sort` -/

theorem SelectMax_spec {α : Type} (p : α → α → Bool)
    (hirr : ∀ a, p a a = false) (htr : ∀ a b c, p a b = true → p b c = true → p a c = true)
    (xs : List α) : ∀ (pre : List α) (Max : α) (MaxIdx : Nat),
      (pre ++ xs)[MaxIdx]? = some Max →
      ∃ v, (pre ++ xs)[SelectMax p Max MaxIdx pre.length xs]? = some v ∧
        (v = Max ∨ p Max v = true) ∧ ∀ e ∈ xs, p v e = false := by
  induction xs with
  | nil =>
    intro pre Max MaxIdx h
    exact ⟨Max, by simpa [SelectMax] using h, Or.inl rfl, by simp⟩
  | cons x xs ih =>
    intro pre Max MaxIdx h
    have hsplit : pre ++ x :: xs = (pre ++ [x]) ++ xs := by simp
    have hlen : (pre ++ [x]).length = pre.length + 1 := by simp
    unfold SelectMax
    by_cases hp : p Max x = true
    · rw [if_pos hp]
      have hx : ((pre ++ [x]) ++ xs)[pre.length]? = some x := by
        rw [List.append_assoc, List.getElem?_append_right (le_refl _)]
        simp
      obtain ⟨v, hv, hrel, hall⟩ := ih (pre ++ [x]) x pre.length hx
      rw [hlen] at hv
      refine ⟨v, by rw [hsplit]; exact hv, Or.inr ?_, ?_⟩
      · rcases hrel with rfl | hxv
        · exact hp
        · exact htr _ _ _ hp hxv
      · intro e he
        rcases List.mem_cons.mp he with rfl | he
        · rcases hrel with rfl | hxv
          · exact hirr _
          · by_contra hcon
            have hve : p v e = true := by simpa using hcon
            have := htr _ _ _ hxv hve
            rw [hirr] at this
            exact Bool.false_ne_true this
        · exact hall e he
    · rw [if_neg hp]
      have hM : ((pre ++ [x]) ++ xs)[MaxIdx]? = some Max := by rw [← hsplit]; exact h
      obtain ⟨v, hv, hrel, hall⟩ := ih (pre ++ [x]) Max MaxIdx hM
      rw [hlen] at hv
      refine ⟨v, by rw [hsplit]; exact hv, hrel, ?_⟩
      intro e he
      rcases List.mem_cons.mp he with rfl | he
      · rcases hrel with rfl | hMv
        · simpa using hp
        · by_contra hcon
          have hve : p v e = true := by simpa using hcon
          exact hp (htr _ _ _ hMv hve)
      · exact hall e he

/-- The scan of a pass ends at an element that the predicate puts before no element of the
range. -/
theorem SelectMax_max {α : Type} (p : α → α → Bool)
    (hirr : ∀ a, p a a = false) (htr : ∀ a b c, p a b = true → p b c = true → p a c = true)
    (x : α) (xs : List α) :
    ∃ v, (x :: xs)[SelectMax p x 0 1 xs]? = some v ∧ ∀ e ∈ x :: xs, p v e = false := by
  obtain ⟨v, hv, hrel, hall⟩ := SelectMax_spec p hirr htr xs [x] x 0 (by simp)
  refine ⟨v, by simpa using hv, ?_⟩
  intro e he
  rcases List.mem_cons.mp he with rfl | he
  · rcases hrel with rfl | hxv
    · exact hirr _
    · by_contra hcon
      have hve : p v e = true := by simpa using hcon
      have := htr _ _ _ hxv hve
      rw [hirr] at this
      exact Bool.false_ne_true this
  · exact hall e he

theorem take_append_last {α : Type} (xs : List α) : ∀ (x vl : α),
    (x :: xs)[xs.length]? = some vl → (x :: xs).take xs.length ++ [vl] = x :: xs := by
  induction xs with
  | nil => intro x vl h; simp at h; simp [h]
  | cons z zs ih =>
    intro x vl h
    have h' : (z :: zs)[zs.length]? = some vl := by simpa using h
    have := ih z vl h'
    simp only [List.length_cons, List.take_succ_cons, List.cons_append]
    rw [this]

/-- Exchanging an element with the last one and cutting the last position off leaves, together
with the element, the range that was there. -/
theorem exchange_last_perm {α : Type} (xs : List α) : ∀ (x : α) (m : Nat) (vm vl : α),
    (x :: xs)[m]? = some vm → (x :: xs)[xs.length]? = some vl →
    (((x :: xs).set m vl).take xs.length ++ [vm]).Perm (x :: xs) := by
  induction xs with
  | nil =>
    intro x m vm vl hm _
    cases m with
    | zero => simp at hm; simp [hm]
    | succ k => simp at hm
  | cons z zs ih =>
    intro x m vm vl hm hl
    have hl' : (z :: zs)[zs.length]? = some vl := by simpa using hl
    cases m with
    | zero =>
      have hx : x = vm := by simpa using hm
      subst hx
      have hD := take_append_last zs z vl hl'
      simp only [List.set_cons_zero, List.length_cons, List.take_succ_cons, List.cons_append]
      have h1 : (vl :: (List.take zs.length (z :: zs) ++ [x])).Perm
          (x :: (List.take zs.length (z :: zs) ++ [vl])) := by
        have hA : (vl :: (List.take zs.length (z :: zs) ++ [x])).Perm
            (vl :: x :: List.take zs.length (z :: zs)) :=
          List.Perm.cons _ (List.perm_append_comm)
        have hB : (x :: (List.take zs.length (z :: zs) ++ [vl])).Perm
            (x :: vl :: List.take zs.length (z :: zs)) :=
          List.Perm.cons _ (List.perm_append_comm)
        exact hA.trans ((List.Perm.swap _ _ _).trans hB.symm)
      rw [hD] at h1
      exact h1
    | succ k =>
      have hm' : (z :: zs)[k]? = some vm := by simpa using hm
      have := ih z k vm vl hm' hl'
      simp only [List.set_cons_succ, List.length_cons, List.take_succ_cons, List.cons_append]
      exact List.Perm.cons _ this

theorem SmallSortLoop_spec {α : Type} (p : α → α → Bool)
    (hirr : ∀ a, p a a = false) (htr : ∀ a b c, p a b = true → p b c = true → p a c = true)
    (fuel : Nat) : ∀ l : List α, l.length ≤ fuel →
      (SmallSortLoop p fuel l).Perm l ∧
      (SmallSortLoop p fuel l).Pairwise (fun a b => p b a = false) := by
  induction fuel with
  | zero =>
    intro l hl
    have : l = [] := List.length_eq_zero.mp (Nat.le_zero.mp hl)
    subst this
    simp [SmallSortLoop]
  | succ fuel ih =>
    intro l hl
    cases l with
    | nil => simp [SmallSortLoop]
    | cons x xs =>
      obtain ⟨vm, hvm, hmax⟩ := SelectMax_max p hirr htr x xs
      have hlast : ∃ vl, (x :: xs)[xs.length]? = some vl :=
        ⟨(x :: xs)[xs.length], List.getElem?_eq_getElem (by simp)⟩
      obtain ⟨vl, hvl⟩ := hlast
      have hperm := exchange_last_perm xs x _ vm vl hvm hvl
      have hlen : (((x :: xs).set (SelectMax p x 0 1 xs) vl).take xs.length).length ≤ fuel := by
        simp only [List.length_take, List.length_set, List.length_cons]
        simp only [List.length_cons] at hl
        omega
      obtain ⟨ihp, ihs⟩ := ih _ hlen
      have hdef : SmallSortLoop p (fuel + 1) (x :: xs) =
          SmallSortLoop p fuel (((x :: xs).set (SelectMax p x 0 1 xs) vl).take xs.length) ++
            [vm] := by
        simp only [SmallSortLoop, hvm, hvl]
      rw [hdef]
      refine ⟨(List.Perm.append_right _ ihp).trans hperm, ?_⟩
      rw [List.pairwise_append]
      refine ⟨ihs, List.pairwise_singleton _ _, ?_⟩
      intro a ha b hb
      have hb' : b = vm := by simpa using hb
      subst hb'
      apply hmax
      apply hperm.subset
      exact List.mem_append_left _ (ihp.subset ha)

theorem SmallSort_SortsByPredicate : SortsByPredicate SmallSort := by
  intro p l hp
  exact SmallSortLoop_spec p hp.irrefl hp.trans l.length l (le_refl _)

/-! ## No pair is pending twice

The registry starts empty and is written by `AddUnique` and `Remove` only, so it never holds a
pair twice. -/

theorem CaptureSceneDeferred_Nodup (F : FloatMath) (This : ObjRef) (e : Engine)
    (h : e.SceneCapturesToUpdateMap.Nodup) :
    (CaptureSceneDeferred F This e).SceneCapturesToUpdateMap.Nodup := by
  unfold CaptureSceneDeferred
  split
  · exact h
  · split
    · exact h
    · split
      · exact nodup_AddUnique _ _ _ h
      · exact h

theorem CaptureScene_Map (This : ObjRef) (e : Engine) :
    (CaptureScene This e).SceneCapturesToUpdateMap = e.SceneCapturesToUpdateMap := by
  unfold CaptureScene
  split
  · rfl
  · split <;> split <;> (try split) <;> rfl

theorem UpdateDeferredCaptures_Nodup
    (TArraySort : (ObjRef → ObjRef → Bool) → List ObjRef → List ObjRef) (World : Option ObjRef)
    (e : Engine) (h : e.SceneCapturesToUpdateMap.Nodup) :
    (UpdateDeferredCaptures TArraySort World e).SceneCapturesToUpdateMap.Nodup := by
  cases World with
  | none => exact h
  | some W =>
    by_cases hNum : e.SceneCapturesToUpdateMap = []
    · have : UpdateDeferredCaptures TArraySort (some W) e = e := by
        unfold UpdateDeferredCaptures
        simp [hNum, TMultiMap.Num]
      rw [this]
      exact h
    · rw [UpdateDeferredCaptures_eq TArraySort W e hNum]
      exact nodup_Remove _ _ h

/-! ## The sort predicate of the flush -/

theorem SortPredicate_valid (Objects : ObjRef → Option UCineCameraCaptureComponent)
    (A B : ObjRef) (a b : UCineCameraCaptureComponent)
    (hA : Objects A = some a) (hB : Objects B = some b) :
    SortPredicate Objects A B = decide (a.CaptureSortPriority > b.CaptureSortPriority) := by
  simp [SortPredicate, hA, hB]

theorem SortPredicate_StrictWeakOrder (Objects : ObjRef → Option UCineCameraCaptureComponent) :
    StrictWeakOrder (SortPredicate Objects) := by
  constructor
  · intro a
    unfold SortPredicate
    cases Objects a <;> simp
  · intro a b c
    unfold SortPredicate
    rcases Objects a with _ | va <;> rcases Objects b with _ | vb <;>
      rcases Objects c with _ | vc <;> simp
    intro h1 h2
    omega
  · intro a b c
    unfold SortPredicate
    rcases Objects a with _ | va <;> rcases Objects b with _ | vb <;>
      rcases Objects c with _ | vc <;> simp
    intro h1 h2 h3 h4
    omega

/-! ## Claims -/

/-- C10. A capture whose world is null, whose world has no scene, or which is not visible:
`CaptureSceneDeferred` returns the process state it was given (the registry is unchanged), and
`CaptureScene` calls neither `SendAllEndOfFrameUpdates` nor the render step; the only call it can
add is the warning for `bCaptureEveryFrame`. -/
theorem noop_without_scene_or_visibility (F : FloatMath) (e : Engine) (This : ObjRef)
    (c : UCineCameraCaptureComponent) (hc : e.Objects This = some c)
    (h : c.World = none ∨ (∃ W, c.World = some W ∧ (e.Worlds W).Scene = false) ∨
      c.Visible = false) :
    CaptureSceneDeferred F This e = e ∧
    (CaptureSceneDeferred F This e).SceneCapturesToUpdateMap = e.SceneCapturesToUpdateMap ∧
    NewCalls e (CaptureScene This e) = (if c.bCaptureEveryFrame then [Call.Warning] else []) ∧
    (∀ W, Call.SendAllEndOfFrameUpdates W ∉ NewCalls e (CaptureScene This e)) ∧
    (∀ X, Call.UpdateSceneCaptureContents X ∉ NewCalls e (CaptureScene This e)) := by
  have hD : CaptureSceneDeferred F This e = e := by
    unfold CaptureSceneDeferred
    rcases h with h | ⟨W, hW, hS⟩ | h
    · simp [hc, h]
    · simp [hc, hW, hS]
    · simp only [hc, h, Bool.and_false]
      cases c.World <;> simp
  have hC : CaptureScene This e =
      if c.bCaptureEveryFrame then { e with Calls := e.Calls ++ [Call.Warning] } else e := by
    unfold CaptureScene
    rcases h with h | ⟨W, hW, hS⟩ | h
    · simp [hc, h]
    · simp [hc, hW, hS]
    · simp only [hc, h, Bool.and_false]
      cases c.World <;> simp
  have hN : NewCalls e (CaptureScene This e) =
      (if c.bCaptureEveryFrame then [Call.Warning] else []) := by
    rw [hC]
    unfold NewCalls
    cases c.bCaptureEveryFrame <;> simp
  refine ⟨hD, by rw [hD], hN, ?_, ?_⟩
  · intro W
    rw [hN]
    cases c.bCaptureEveryFrame <;> simp
  · intro X
    rw [hN]
    cases c.bCaptureEveryFrame <;> simp

/-- Witness for C10: an invisible capture of the small scene. -/
theorem noop_without_scene_or_visibility_witness :
    CaptureSceneDeferred SampleFloatMath 7
        { SampleEngine [] with
          Objects := fun _ => some { SampleComponent 0 with Visible := false } } =
      { SampleEngine [] with
        Objects := fun _ => some { SampleComponent 0 with Visible := false } } ∧
    NewCalls
        { SampleEngine [] with
          Objects := fun _ => some { SampleComponent 0 with Visible := false } }
        (CaptureScene 7
          { SampleEngine [] with
            Objects := fun _ => some { SampleComponent 0 with Visible := false } }) =
      [Call.Warning] :=
  have h := noop_without_scene_or_visibility SampleFloatMath
    { SampleEngine [] with Objects := fun _ => some { SampleComponent 0 with Visible := false } }
    7 { SampleComponent 0 with Visible := false } rfl (Or.inr (Or.inr rfl))
  ⟨h.1, h.2.2.1⟩

/-- C1. A visible capture `c` of a world `W` with a scene, pending at most once before: after
`N >= 1` calls of `CaptureSceneDeferred` with no flush in between, the registry holds the pair
`(W, c)` exactly once, and the following `UpdateDeferredCaptures` for `W` hands `c` to the render
step exactly once. -/
theorem idempotent_registration (F : FloatMath)
    (TArraySort : (ObjRef → ObjRef → Bool) → List ObjRef → List ObjRef)
    (hSort : SortsByPredicate TArraySort) (e : Engine) (W c : ObjRef)
    (comp : UCineCameraCaptureComponent) (hc : e.Objects c = some comp)
    (hW : comp.World = some W) (hScene : (e.Worlds W).Scene = true)
    (hVis : comp.Visible = true)
    (hOnce : List.count (W, c) e.SceneCapturesToUpdateMap ≤ 1) (N : Nat) (hN : 1 ≤ N) :
    List.count (W, c) ((CaptureSceneDeferred F c)^[N] e).SceneCapturesToUpdateMap = 1 ∧
    List.count c (Rendered ((CaptureSceneDeferred F c)^[N] e)
      (UpdateDeferredCaptures TArraySort (some W) ((CaptureSceneDeferred F c)^[N] e))) = 1 := by
  obtain ⟨n, rfl⟩ : ∃ n, N = n + 1 := ⟨N - 1, by omega⟩
  obtain ⟨⟨c', hc'⟩, hcount⟩ :=
    CaptureSceneDeferred_iterate F c W n e ⟨comp, hc, hW, hScene, hVis⟩ hOnce
  refine ⟨hcount, ?_⟩
  generalize (CaptureSceneDeferred F c)^[n + 1] e = e' at hc' hcount ⊢
  have hne : e'.SceneCapturesToUpdateMap ≠ [] := by
    intro h
    rw [h] at hcount
    simp at hcount
  rw [Rendered_UpdateDeferredCaptures, if_neg hne]
  have hvalid : IsValid e'.Objects c = true := by simp [IsValid, hc']
  rw [List.count_filter hvalid,
    (hSort _ _ (SortPredicate_StrictWeakOrder e'.Objects)).1.count_eq, count_MultiFind]
  exact hcount

/-- Witness for C1: capture `1` of the small scene, requested three times. -/
theorem idempotent_registration_witness :
    List.count (0, 1)
      ((CaptureSceneDeferred SampleFloatMath 1)^[3] (SampleEngine [])).SceneCapturesToUpdateMap
      = 1 ∧
    List.count 1 (Rendered ((CaptureSceneDeferred SampleFloatMath 1)^[3] (SampleEngine []))
      (UpdateDeferredCaptures SmallSort (some 0)
        ((CaptureSceneDeferred SampleFloatMath 1)^[3] (SampleEngine [])))) = 1 :=
  idempotent_registration SampleFloatMath SmallSort SmallSort_SortsByPredicate (SampleEngine []) 0 1
    (SampleComponent 10) rfl rfl rfl rfl (by decide) 3 (by decide)

/-- C2. In one flush the valid pending captures of the world are handed to the render step in
non-increasing `CaptureSortPriority` order: whenever `x` is rendered before `y`, both are live
components and the priority of `x` is at least that of `y`. -/
theorem highest_priority_first
    (TArraySort : (ObjRef → ObjRef → Bool) → List ObjRef → List ObjRef)
    (hSort : SortsByPredicate TArraySort) (e : Engine) (W : ObjRef) :
    (Rendered e (UpdateDeferredCaptures TArraySort (some W) e)).Pairwise
      (fun x y => ∃ a b, e.Objects x = some a ∧ e.Objects y = some b ∧
        a.CaptureSortPriority ≥ b.CaptureSortPriority) := by
  rw [Rendered_UpdateDeferredCaptures]
  split
  · exact List.Pairwise.nil
  · have hs := (hSort (SortPredicate e.Objects) (e.SceneCapturesToUpdateMap.MultiFind W)
      (SortPredicate_StrictWeakOrder e.Objects)).2
    refine List.Pairwise.imp_of_mem ?_ (hs.filter _)
    intro x y hx hy hxy
    have hvx := (List.mem_filter.mp hx).2
    have hvy := (List.mem_filter.mp hy).2
    unfold IsValid at hvx hvy
    obtain ⟨a, ha⟩ := Option.isSome_iff_exists.mp hvx
    obtain ⟨b, hb⟩ := Option.isSome_iff_exists.mp hvy
    refine ⟨a, b, ha, hb, ?_⟩
    rw [SortPredicate_valid e.Objects y x b a hb ha] at hxy
    simpa using hxy

/-- Witness for C2: captures `1` (priority 10), `4` (priority 5) and `2` (priority 20) pending;
the engine's short-range sort renders `2`, `1`, `4`. -/
theorem highest_priority_first_witness :
    (Rendered (SampleEngine [(0, 2), (0, 4), (0, 1)])
      (UpdateDeferredCaptures SmallSort (some 0) (SampleEngine [(0, 2), (0, 4), (0, 1)]))).Pairwise
      (fun x y => ∃ a b, SampleObjects x = some a ∧ SampleObjects y = some b ∧
        a.CaptureSortPriority ≥ b.CaptureSortPriority) ∧
    Rendered (SampleEngine [(0, 2), (0, 4), (0, 1)])
      (UpdateDeferredCaptures SmallSort (some 0) (SampleEngine [(0, 2), (0, 4), (0, 1)]))
      = [2, 1, 4] :=
  ⟨highest_priority_first SmallSort SmallSort_SortsByPredicate
    (SampleEngine [(0, 2), (0, 4), (0, 1)]) 0, by decide⟩

theorem UpdateDeferredCaptures_Map
    (TArraySort : (ObjRef → ObjRef → Bool) → List ObjRef → List ObjRef) (W : ObjRef) (e : Engine) :
    (UpdateDeferredCaptures TArraySort (some W) e).SceneCapturesToUpdateMap =
      e.SceneCapturesToUpdateMap.Remove W := by
  by_cases hNum : e.SceneCapturesToUpdateMap = []
  · unfold UpdateDeferredCaptures
    simp [hNum, TMultiMap.Num, TMultiMap.Remove]
  · rw [UpdateDeferredCaptures_eq TArraySort W e hNum]

/-- C5. After `UpdateDeferredCaptures` for a world `W` the registry holds no pair keyed by `W`,
whatever was pending and whether or not it was valid, and a second `UpdateDeferredCaptures` for
`W` right after it hands nothing to the render step. -/
theorem flush_empties_world
    (TArraySort : (ObjRef → ObjRef → Bool) → List ObjRef → List ObjRef)
    (hSort : SortsByPredicate TArraySort) (e : Engine) (W : ObjRef) :
    (∀ c, (W, c) ∉ (UpdateDeferredCaptures TArraySort (some W) e).SceneCapturesToUpdateMap) ∧
    (UpdateDeferredCaptures TArraySort (some W) e).SceneCapturesToUpdateMap.MultiFind W = [] ∧
    Rendered (UpdateDeferredCaptures TArraySort (some W) e)
      (UpdateDeferredCaptures TArraySort (some W)
        (UpdateDeferredCaptures TArraySort (some W) e)) = [] := by
  have hMap := UpdateDeferredCaptures_Map TArraySort W e
  refine ⟨?_, ?_, ?_⟩
  · intro c hmem
    rw [hMap] at hmem
    unfold TMultiMap.Remove at hmem
    have := (List.mem_filter.mp hmem).2
    simp at this
  · rw [hMap]
    exact MultiFind_Remove _ _
  · rw [Rendered_UpdateDeferredCaptures]
    split
    · rfl
    · rw [hMap, MultiFind_Remove]
      have hp := (hSort (SortPredicate (UpdateDeferredCaptures TArraySort (some W) e).Objects) []
        (SortPredicate_StrictWeakOrder _)).1
      rw [List.perm_nil.mp hp]
      rfl

/-- Witness for C5: the small scene with `1`, `2` and the destroyed `3` pending for world `0` and
a pair of another world, which stays. -/
theorem flush_empties_world_witness :
    (UpdateDeferredCaptures SmallSort (some 0)
      (SampleEngine [(0, 3), (9, 1), (0, 2), (0, 1)])).SceneCapturesToUpdateMap = [(9, 1)] ∧
    Rendered (UpdateDeferredCaptures SmallSort (some 0)
        (SampleEngine [(0, 3), (9, 1), (0, 2), (0, 1)]))
      (UpdateDeferredCaptures SmallSort (some 0) (UpdateDeferredCaptures SmallSort (some 0)
        (SampleEngine [(0, 3), (9, 1), (0, 2), (0, 1)]))) = [] :=
  ⟨by decide,
    (flush_empties_world SmallSort SmallSort_SortsByPredicate
      (SampleEngine [(0, 3), (9, 1), (0, 2), (0, 1)]) 0).2.2⟩

/-- C4. A flush with valid and destroyed captures pending for `W` (each pair pending once): it
is a total function of the state, every valid pending capture is handed to the render step
exactly once, a destroyed one never, and nothing is rendered that was not pending for `W`. -/
theorem stale_entries_skipped
    (TArraySort : (ObjRef → ObjRef → Bool) → List ObjRef → List ObjRef)
    (hSort : SortsByPredicate TArraySort) (e : Engine) (W : ObjRef)
    (hNodup : e.SceneCapturesToUpdateMap.Nodup) :
    (∀ c, (W, c) ∈ e.SceneCapturesToUpdateMap → IsValid e.Objects c = true →
      List.count c (Rendered e (UpdateDeferredCaptures TArraySort (some W) e)) = 1) ∧
    (∀ c, IsValid e.Objects c = false →
      c ∉ Rendered e (UpdateDeferredCaptures TArraySort (some W) e)) ∧
    (∀ c, (W, c) ∉ e.SceneCapturesToUpdateMap →
      c ∉ Rendered e (UpdateDeferredCaptures TArraySort (some W) e)) := by
  have hperm := (hSort (SortPredicate e.Objects) (e.SceneCapturesToUpdateMap.MultiFind W)
    (SortPredicate_StrictWeakOrder e.Objects)).1
  rw [Rendered_UpdateDeferredCaptures]
  refine ⟨?_, ?_, ?_⟩
  · intro c hmem hvalid
    have hne : e.SceneCapturesToUpdateMap ≠ [] := List.ne_nil_of_mem hmem
    rw [if_neg hne, List.count_filter hvalid, hperm.count_eq, count_MultiFind]
    exact count_eq_one_of_nodup _ _ hNodup hmem
  · intro c hinvalid hmem
    split at hmem
    · simp at hmem
    · have := (List.mem_filter.mp hmem).2
      rw [hinvalid] at this
      exact Bool.false_ne_true this
  · intro c hnot hmem
    split at hmem
    · simp at hmem
    · have h1 := hperm.subset (List.mem_filter.mp hmem).1
      have h2 : 0 < List.count c (e.SceneCapturesToUpdateMap.MultiFind W) :=
        List.count_pos_iff.mpr h1
      rw [count_MultiFind] at h2
      exact hnot (List.count_pos_iff.mp h2)

/-- Witness for C4: A (`1`, priority 10) and B (`2`, priority 20) requested, then C (`3`), which is
destroyed before the flush: B is rendered, then A, and C is left out. -/
theorem stale_entries_skipped_witness :
    List.count 1 (Rendered (SampleEngine [(0, 3), (0, 2), (0, 1)])
      (UpdateDeferredCaptures SmallSort (some 0) (SampleEngine [(0, 3), (0, 2), (0, 1)]))) = 1 ∧
    3 ∉ Rendered (SampleEngine [(0, 3), (0, 2), (0, 1)])
      (UpdateDeferredCaptures SmallSort (some 0) (SampleEngine [(0, 3), (0, 2), (0, 1)])) ∧
    Rendered (SampleEngine [(0, 3), (0, 2), (0, 1)])
      (UpdateDeferredCaptures SmallSort (some 0) (SampleEngine [(0, 3), (0, 2), (0, 1)]))
      = [2, 1] :=
  have h := stale_entries_skipped SmallSort SmallSort_SortsByPredicate
    (SampleEngine [(0, 3), (0, 2), (0, 1)]) 0 (by decide)
  ⟨h.1 1 (by decide) rfl, h.2.1 3 rfl, by decide⟩

theorem Rendered_pairwise
    (TArraySort : (ObjRef → ObjRef → Bool) → List ObjRef → List ObjRef)
    (hSort : SortsByPredicate TArraySort) (e : Engine) (W : ObjRef) :
    (Rendered e (UpdateDeferredCaptures TArraySort (some W) e)).Pairwise
      (fun x y => ∃ a b, e.Objects x = some a ∧ e.Objects y = some b ∧
        a.CaptureSortPriority ≥ b.CaptureSortPriority) := by
  rw [Rendered_UpdateDeferredCaptures]
  split
  · exact List.Pairwise.nil
  · have hs := (hSort (SortPredicate e.Objects) (e.SceneCapturesToUpdateMap.MultiFind W)
      (SortPredicate_StrictWeakOrder e.Objects)).2
    refine List.Pairwise.imp_of_mem ?_ (hs.filter _)
    intro x y hx hy hxy
    have hvx := (List.mem_filter.mp hx).2
    have hvy := (List.mem_filter.mp hy).2
    unfold IsValid at hvx hvy
    obtain ⟨a, ha⟩ := Option.isSome_iff_exists.mp hvx
    obtain ⟨b, hb⟩ := Option.isSome_iff_exists.mp hvy
    refine ⟨a, b, ha, hb, ?_⟩
    rw [SortPredicate_valid e.Objects y x b a hb ha] at hxy
    simpa using hxy

theorem Rendered_count_valid
    (TArraySort : (ObjRef → ObjRef → Bool) → List ObjRef → List ObjRef)
    (hSort : SortsByPredicate TArraySort) (e : Engine) (W c : ObjRef)
    (hNodup : e.SceneCapturesToUpdateMap.Nodup) (hmem : (W, c) ∈ e.SceneCapturesToUpdateMap)
    (hvalid : IsValid e.Objects c = true) :
    List.count c (Rendered e (UpdateDeferredCaptures TArraySort (some W) e)) = 1 := by
  have hperm := (hSort (SortPredicate e.Objects) (e.SceneCapturesToUpdateMap.MultiFind W)
    (SortPredicate_StrictWeakOrder e.Objects)).1
  have hne : e.SceneCapturesToUpdateMap ≠ [] := List.ne_nil_of_mem hmem
  rw [Rendered_UpdateDeferredCaptures, if_neg hne, List.count_filter hvalid, hperm.count_eq,
    count_MultiFind]
  exact count_eq_one_of_nodup _ _ hNodup hmem

/-- C3, as the claim states it, fails. Captures `4`, `5`, `6` of equal priority 5 request a
deferred capture in this order; the registry then holds them newest first, `MultiFind` hands them
out as `6, 5, 4`, and the engine's sort (not a stable one) leaves `5, 4, 6`: capture `5` is
rendered before capture `4`, which was registered before it. (Handed the three in registration
order, the same sort would leave `5, 6, 4`, with `5` before `4` again.) -/
theorem tie_break_not_registration_order :
    ThreeEqualRequested.SceneCapturesToUpdateMap = [(0, 6), (0, 5), (0, 4)] ∧
    Rendered ThreeEqualRequested (UpdateDeferredCaptures SmallSort (some 0) ThreeEqualRequested)
      = [5, 4, 6] ∧
    SmallSort (SortPredicate ThreeEqualRequested.Objects) [4, 5, 6] = [5, 6, 4] := by
  decide

/-- C3, amended. Two valid captures `x` and `y` pending (once each) for the same world with equal
`CaptureSortPriority`: each is handed to the render step exactly once, and every capture rendered
between the two has that same priority. Which of the two comes first is left to the sort. -/
theorem equal_priority_rendered_together
    (TArraySort : (ObjRef → ObjRef → Bool) → List ObjRef → List ObjRef)
    (hSort : SortsByPredicate TArraySort) (e : Engine) (W x y : ObjRef)
    (a b : UCineCameraCaptureComponent)
    (hx : e.Objects x = some a) (hy : e.Objects y = some b)
    (hpx : (W, x) ∈ e.SceneCapturesToUpdateMap) (hpy : (W, y) ∈ e.SceneCapturesToUpdateMap)
    (hEq : a.CaptureSortPriority = b.CaptureSortPriority)
    (hNodup : e.SceneCapturesToUpdateMap.Nodup) :
    List.count x (Rendered e (UpdateDeferredCaptures TArraySort (some W) e)) = 1 ∧
    List.count y (Rendered e (UpdateDeferredCaptures TArraySort (some W) e)) = 1 ∧
    ∀ (l1 l2 l3 : List ObjRef) (u v : ObjRef),
      Rendered e (UpdateDeferredCaptures TArraySort (some W) e) = l1 ++ u :: (l2 ++ v :: l3) →
      (u = x ∧ v = y ∨ u = y ∧ v = x) →
      ∀ z ∈ l2, ∃ cz, e.Objects z = some cz ∧ cz.CaptureSortPriority = a.CaptureSortPriority := by
  refine ⟨Rendered_count_valid TArraySort hSort e W x hNodup hpx (by simp [IsValid, hx]),
    Rendered_count_valid TArraySort hSort e W y hNodup hpy (by simp [IsValid, hy]), ?_⟩
  intro l1 l2 l3 u v hR huv z hz
  have hP := Rendered_pairwise TArraySort hSort e W
  rw [hR] at hP
  have hP2 := (List.pairwise_append.mp hP).2.1
  obtain ⟨hu, hrest⟩ := List.pairwise_cons.mp hP2
  obtain ⟨au, cz, hau, hcz, h1⟩ := hu z (List.mem_append_left _ hz)
  obtain ⟨cz', bv, hcz', hbv, h2⟩ :=
    (List.pairwise_append.mp hrest).2.2 z hz v (List.mem_cons_self _ _)
  have hczeq : cz' = cz := by
    rw [hcz] at hcz'
    exact (Option.some.inj hcz').symm
  subst hczeq
  refine ⟨cz', hcz, ?_⟩
  rcases huv with ⟨rfl, rfl⟩ | ⟨rfl, rfl⟩
  · rw [hx] at hau
    rw [hy] at hbv
    cases hau
    cases hbv
    omega
  · rw [hy] at hau
    rw [hx] at hbv
    cases hau
    cases hbv
    omega

/-- Witness for C3, amended: captures `4` and `5` of the small scene, both of priority 5, with
`6` (priority 5) and `2` (priority 20) pending as well. -/
theorem equal_priority_rendered_together_witness :
    List.count 4 (Rendered (SampleEngine [(0, 6), (0, 5), (0, 2), (0, 4)])
      (UpdateDeferredCaptures SmallSort (some 0)
        (SampleEngine [(0, 6), (0, 5), (0, 2), (0, 4)]))) = 1 ∧
    List.count 5 (Rendered (SampleEngine [(0, 6), (0, 5), (0, 2), (0, 4)])
      (UpdateDeferredCaptures SmallSort (some 0)
        (SampleEngine [(0, 6), (0, 5), (0, 2), (0, 4)]))) = 1 :=
  have h := equal_priority_rendered_together SmallSort SmallSort_SortsByPredicate
    (SampleEngine [(0, 6), (0, 5), (0, 2), (0, 4)]) 0 4 5 (SampleComponent 5) (SampleComponent 5)
    rfl rfl (by decide) (by decide) rfl (by decide)
  ⟨h.1, h.2.1⟩

/-! ## GetViewState -/

theorem WrapInt32_of_range (x : Int) (h0 : 0 ≤ x) (h1 : x ≤ MAX_int32) : WrapInt32 x = x := by
  unfold WrapInt32
  unfold MAX_int32 at h1
  omega

/-- Unfolding of `GetViewState` at an index from 0 to below `MAX_int32`, with the growth step and
the slot access worked out: the array is first padded with empty references up to the index. -/
theorem GetViewState_ofNat (Allocated : Option Handle) (n : Nat) (hBound : (n : Int) < MAX_int32)
    (c : UCineCameraCaptureComponent) :
    ∃ slot, (c.ViewStates ++ List.replicate (n + 1 - c.ViewStates.length) none)[n]? = some slot ∧
      GetViewState Allocated (n : Int) c =
        if (c.bCaptureEveryFrame || c.bAlwaysPersistRenderingState) && slot.isNone then
          some (Allocated, { c with
            ViewStates :=
              (c.ViewStates ++ List.replicate (n + 1 - c.ViewStates.length) none).set n Allocated })
        else if !c.bCaptureEveryFrame && slot.isSome && !c.bAlwaysPersistRenderingState then
          some (none, { c with
            ViewStates :=
              (c.ViewStates ++ List.replicate (n + 1 - c.ViewStates.length) none).set n none })
        else some (slot, { c with
            ViewStates := c.ViewStates ++ List.replicate (n + 1 - c.ViewStates.length) none }) := by
  have hgrow : (if (n : Int) ≥ c.ViewStates.length then
        AddZeroed c.ViewStates (WrapInt32 ((n : Int) - c.ViewStates.length + 1))
        else some c.ViewStates) =
      some (c.ViewStates ++ List.replicate (n + 1 - c.ViewStates.length) none) := by
    by_cases h : c.ViewStates.length ≤ n
    · have h' : (n : Int) ≥ (c.ViewStates.length : Int) := by exact_mod_cast h
      rw [if_pos h']
      have hw : WrapInt32 ((n : Int) - c.ViewStates.length + 1) =
          (n : Int) - c.ViewStates.length + 1 :=
        WrapInt32_of_range _ (by omega) (by omega)
      rw [hw]
      unfold AddZeroed
      have hok : ¬ ((n : Int) - c.ViewStates.length + 1 < 0 ∨
          (c.ViewStates.length : Int) + ((n : Int) - c.ViewStates.length + 1) > MAX_int32) := by
        omega
      rw [if_neg hok]
      have : ((n : Int) - c.ViewStates.length + 1).toNat = n + 1 - c.ViewStates.length := by
        omega
      rw [this]
    · have h' : ¬ ((n : Int) ≥ (c.ViewStates.length : Int)) := by
        intro hc
        exact h (by exact_mod_cast hc)
      rw [if_neg h']
      have : n + 1 - c.ViewStates.length = 0 := by omega
      rw [this]
      simp
  have hlt : n < (c.ViewStates ++ List.replicate (n + 1 - c.ViewStates.length) none).length := by
    simp only [List.length_append, List.length_replicate]
    omega
  refine ⟨(c.ViewStates ++ List.replicate (n + 1 - c.ViewStates.length) none)[n],
    List.getElem?_eq_getElem hlt, ?_⟩
  unfold GetViewState
  simp only [hgrow]
  have hneg : ¬ ((n : Int) < 0) := by omega
  simp only [hneg, if_false, Int.toNat_ofNat, List.getElem?_eq_getElem hlt]

theorem padded_getElem? (ViewStates : List (Option Handle)) (n : Nat) :
    (ViewStates ++ List.replicate (n + 1 - ViewStates.length) none)[n]? =
      if n < ViewStates.length then ViewStates[n]? else some none := by
  by_cases h : n < ViewStates.length
  · rw [if_pos h, List.getElem?_append_left h]
  · rw [if_neg h, List.getElem?_append_right (by omega)]
    rw [List.getElem?_replicate]
    have : n - ViewStates.length < n + 1 - ViewStates.length := by omega
    simp [this]

/-- C6, as the claim states it, fails at the largest index. `GetViewState(2147483647)` on a
component without view states that captures every frame (persistence is required, the allocator
delivers handle 77): `ViewIndex - ViewStates.Num() + 1` is 2147483648, which as an `int32` is
-2147483648, and `AddZeroed` has no array to produce; the call does not come back with a
handle. -/
theorem GetViewState_no_handle_at_MAX_int32 :
    ((SampleComponent 0).bCaptureEveryFrame || (SampleComponent 0).bAlwaysPersistRenderingState)
      = true ∧
    (SampleComponent 0).ViewStates = [] ∧
    WrapInt32 (2147483647 - 0 + 1) = -2147483648 ∧
    GetViewState (some 77) 2147483647 (SampleComponent 0) = none := by
  refine ⟨rfl, rfl, by decide, ?_⟩
  unfold GetViewState AddZeroed
  simp [SampleComponent, WrapInt32, MAX_int32]

/-- C6, amended. For an index from 0 to below `MAX_int32` and an allocator that delivers a
handle, `GetViewState` reaches slot `ViewIndex` inside the array and returns a handle if and only
if `bCaptureEveryFrame || bAlwaysPersistRenderingState`; afterwards the slot holds exactly what
was returned. A handle that was there is kept when persistence is required and destroyed when
not; a missing one is allocated when persistence is required. The two flags are not written. -/
theorem GetViewState_handle_iff_persistence (Allocated : Option Handle)
    (hAlloc : Allocated.isSome = true) (ViewIndex : Int) (hIndex : 0 ≤ ViewIndex)
    (hBound : ViewIndex < MAX_int32) (c : UCineCameraCaptureComponent) :
    ∃ Result c', GetViewState Allocated ViewIndex c = some (Result, c') ∧
      (Result.isSome = true ↔
        (c.bCaptureEveryFrame || c.bAlwaysPersistRenderingState) = true) ∧
      c'.ViewStates[ViewIndex.toNat]? = some Result ∧
      c'.bCaptureEveryFrame = c.bCaptureEveryFrame ∧
      c'.bAlwaysPersistRenderingState = c.bAlwaysPersistRenderingState ∧
      (∀ h, c.ViewStates[ViewIndex.toNat]? = some (some h) →
        Result = if c.bCaptureEveryFrame || c.bAlwaysPersistRenderingState then some h
          else none) ∧
      ((c.ViewStates[ViewIndex.toNat]? = none ∨ c.ViewStates[ViewIndex.toNat]? = some none) →
        Result = if c.bCaptureEveryFrame || c.bAlwaysPersistRenderingState then Allocated
          else none) := by
  obtain ⟨n, rfl⟩ := Int.eq_ofNat_of_zero_le hIndex
  obtain ⟨slot, hslot, hG⟩ := GetViewState_ofNat Allocated n hBound c
  obtain ⟨hnd, rfl⟩ := Option.isSome_iff_exists.mp hAlloc
  have hlt : n < (c.ViewStates ++ List.replicate (n + 1 - c.ViewStates.length) none).length := by
    simp only [List.length_append, List.length_replicate]
    omega
  have hpad := padded_getElem? c.ViewStates n
  rw [hslot] at hpad
  have hset : ∀ v : Option Handle,
      ((c.ViewStates ++ List.replicate (n + 1 - c.ViewStates.length) none).set n v)[n]? =
        some v := by
    intro v
    rw [List.getElem?_set_self hlt]
  have hold : c.ViewStates[n]? = some slot ∨ (c.ViewStates[n]? = none ∧ slot = none) := by
    by_cases hin : n < c.ViewStates.length
    · rw [if_pos hin] at hpad
      exact Or.inl hpad.symm
    · rw [if_neg hin] at hpad
      exact Or.inr ⟨List.getElem?_eq_none (by omega), Option.some.inj hpad⟩
  simp only [Int.toNat_ofNat]
  have hkept : ∀ h, c.ViewStates[n]? = some (some h) → slot = some h := by
    intro h hh
    rcases hold with ho | ⟨ho, _⟩
    · rw [hh] at ho
      exact (Option.some.inj ho).symm
    · rw [hh] at ho
      simp at ho
  have hmissing : (c.ViewStates[n]? = none ∨ c.ViewStates[n]? = some none) → slot = none := by
    intro hh
    rcases hold with ho | ⟨_, hs⟩
    · rcases hh with hh | hh
      · rw [hh] at ho
        simp at ho
      · rw [hh] at ho
        exact (Option.some.inj ho).symm
    · exact hs
  clear hold hpad
  rcases hE : c.bCaptureEveryFrame <;> rcases hP : c.bAlwaysPersistRenderingState <;>
    rcases slot with _ | h0 <;> simp only [hE, hP] at hG <;> simp at hG <;>
    refine ⟨_, _, hG, by simp, by first | exact hset _ | exact hslot, rfl, rfl,
      fun h hh => ?_, fun hh => ?_⟩
  all_goals first
    | (have hk := hkept h hh; simp at hk; done)
    | (have hk := hkept h hh; simp at hk; subst hk; simp)
    | (have hm := hmissing hh; simp at hm; done)
    | (have hm := hmissing hh; simp)

/-- Witness for C6, amended: view index 1 on a component without view states that captures every
frame; the array grows to two slots and slot 1 receives the allocated handle 77. -/
theorem GetViewState_handle_iff_persistence_witness :
    GetViewState (some 77) 1 (SampleComponent 0) =
      some (some 77, { SampleComponent 0 with ViewStates := [none, some 77] }) ∧
    ∃ Result c', GetViewState (some 77) 1 (SampleComponent 0) = some (Result, c') ∧
      (Result.isSome = true ↔ ((SampleComponent 0).bCaptureEveryFrame ||
        (SampleComponent 0).bAlwaysPersistRenderingState) = true) :=
  have h := GetViewState_handle_iff_persistence (some 77) rfl 1 (by decide) (by decide)
    (SampleComponent 0)
  ⟨rfl, h.elim fun r h1 => h1.elim fun c' h2 => ⟨r, c', h2.1, h2.2.1⟩⟩

/-! ## UpdateCameraLensCapture -/

theorem FMath_Max_eq_max (A B : ℚ) : FMath.Max A B = max A B := by
  unfold FMath.Max
  by_cases h : A ≥ B
  · rw [if_pos h, max_eq_left h]
  · rw [if_neg h, max_eq_right (le_of_lt (not_le.mp h))]

/-- The focus branch of `UpdateCameraLensCapture`: what it leaves in `CurrentFocusDistance`,
`LastFocusDistance`, the emitted focal distance and the reset flag. -/
theorem UpdateCameraLensCapture_focus (F : FloatMath) (DeltaTime : ℚ)
    (c : UCineCameraCaptureComponent) (hF : c.FocusMethod ≠ ECameraFocusMethod.None) :
    (UpdateCameraLensCapture F DeltaTime c).CurrentFocusDistance =
      (if c.bSmoothFocusChanges then
        if c.bResetInterpolation = false then
          F.FInterpTo c.LastFocusDistance
            (FMath.Max c.DesiredFocusDistance
              (F.Mul c.MinimumFocusDistance (F.Div c.WorldToMetersScale 1000)))
            DeltaTime c.FocusSmoothingInterpSpeed
        else FMath.Max c.DesiredFocusDistance
          (F.Mul c.MinimumFocusDistance (F.Div c.WorldToMetersScale 1000))
      else FMath.Max c.DesiredFocusDistance
        (F.Mul c.MinimumFocusDistance (F.Div c.WorldToMetersScale 1000))) ∧
    (UpdateCameraLensCapture F DeltaTime c).LastFocusDistance =
      (UpdateCameraLensCapture F DeltaTime c).CurrentFocusDistance ∧
    (UpdateCameraLensCapture F DeltaTime c).CameraLensPostProcessSettings.DepthOfFieldFocalDistance
      = (UpdateCameraLensCapture F DeltaTime c).CurrentFocusDistance ∧
    (UpdateCameraLensCapture F DeltaTime
      c).CameraLensPostProcessSettings.bOverride_DepthOfFieldFocalDistance = true ∧
    (UpdateCameraLensCapture F DeltaTime c).bResetInterpolation = false := by
  unfold UpdateCameraLensCapture
  rw [if_neg hF]
  exact ⟨rfl, rfl, rfl, rfl, rfl⟩

/-- C8. Focus method other than `None`, and smoothing off or a reset pending: for every
`DeltaTime` and every prior `LastFocusDistance` the resulting `CurrentFocusDistance` is the larger
of the desired distance and the minimum focus distance in world units as the code computes it
(whatever the float product and quotient round to, and whatever `FInterpTo` does);
`LastFocusDistance` and the emitted focal distance receive the same value, and the reset flag is
cleared. -/
theorem no_interpolation_without_smoothing_or_on_reset (F : FloatMath) (DeltaTime : ℚ)
    (c : UCineCameraCaptureComponent) (hF : c.FocusMethod ≠ ECameraFocusMethod.None)
    (h : c.bSmoothFocusChanges = false ∨ c.bResetInterpolation = true) :
    (UpdateCameraLensCapture F DeltaTime c).CurrentFocusDistance =
      max c.DesiredFocusDistance
        (F.Mul c.MinimumFocusDistance (F.Div c.WorldToMetersScale 1000)) ∧
    (UpdateCameraLensCapture F DeltaTime c).LastFocusDistance =
      max c.DesiredFocusDistance
        (F.Mul c.MinimumFocusDistance (F.Div c.WorldToMetersScale 1000)) ∧
    (UpdateCameraLensCapture F DeltaTime c).CameraLensPostProcessSettings.DepthOfFieldFocalDistance
      = max c.DesiredFocusDistance
        (F.Mul c.MinimumFocusDistance (F.Div c.WorldToMetersScale 1000)) ∧
    (UpdateCameraLensCapture F DeltaTime c).bResetInterpolation = false := by
  obtain ⟨hC, hL, hD, _, hR⟩ := UpdateCameraLensCapture_focus F DeltaTime c hF
  have hval : (UpdateCameraLensCapture F DeltaTime c).CurrentFocusDistance =
      max c.DesiredFocusDistance
        (F.Mul c.MinimumFocusDistance (F.Div c.WorldToMetersScale 1000)) := by
    rw [hC, FMath_Max_eq_max]
    rcases h with h | h
    · simp [h]
    · simp [h]
  exact ⟨hval, hL.trans hval, hD.trans hval, hR⟩

/-- Witness for C8: the sample component with a reset pending, 1000 units away from its target;
the update lands on the minimum focus distance 15 at once. -/
theorem no_interpolation_without_smoothing_or_on_reset_witness :
    (UpdateCameraLensCapture SampleFloatMath (1 / 60)
      { SampleComponent 0 with bResetInterpolation := true }).CurrentFocusDistance =
      max 5 (150 * (100 / 1000)) ∧
    (UpdateCameraLensCapture SampleFloatMath (1 / 60)
      { SampleComponent 0 with bResetInterpolation := true }).LastFocusDistance =
      max 5 (150 * (100 / 1000)) :=
  have h := no_interpolation_without_smoothing_or_on_reset SampleFloatMath (1 / 60)
    { SampleComponent 0 with bResetInterpolation := true } (by decide) (Or.inr rfl)
  ⟨h.1, h.2.1⟩

/-- With smoothing on and no reset pending, the minimum reaches `CurrentFocusDistance` only
through `FInterpTo`: for a desired distance below the minimum, the result differs from the
minimum whenever the interpolation step from `LastFocusDistance` toward the minimum does not
return the minimum itself, whatever the float operations are. -/
theorem smoothed_minimum_is_interpolated (F : FloatMath) (DeltaTime : ℚ)
    (c : UCineCameraCaptureComponent) (hF : c.FocusMethod ≠ ECameraFocusMethod.None)
    (hBelow : c.DesiredFocusDistance <
      F.Mul c.MinimumFocusDistance (F.Div c.WorldToMetersScale 1000))
    (hS : c.bSmoothFocusChanges = true) (hR : c.bResetInterpolation = false)
    (hStep : F.FInterpTo c.LastFocusDistance
        (F.Mul c.MinimumFocusDistance (F.Div c.WorldToMetersScale 1000)) DeltaTime
        c.FocusSmoothingInterpSpeed ≠
      F.Mul c.MinimumFocusDistance (F.Div c.WorldToMetersScale 1000)) :
    (UpdateCameraLensCapture F DeltaTime c).CurrentFocusDistance ≠
      F.Mul c.MinimumFocusDistance (F.Div c.WorldToMetersScale 1000) := by
  obtain ⟨hC, _⟩ := UpdateCameraLensCapture_focus F DeltaTime c hF
  have hmax : FMath.Max c.DesiredFocusDistance
      (F.Mul c.MinimumFocusDistance (F.Div c.WorldToMetersScale 1000)) =
      F.Mul c.MinimumFocusDistance (F.Div c.WorldToMetersScale 1000) := by
    unfold FMath.Max
    rw [if_neg (not_le.mpr hBelow)]
  rw [hmax] at hC
  rw [hC]
  simpa [hS, hR] using hStep

/-- C7, as the claim states it, fails. The sample component has a desired distance 5 below its
minimum focus distance 15 (150 mm at 100 units per metre), smoothing on and no reset pending, so
the minimum goes through `FInterpTo` before it is stored. With an interpolation that moves only
partway, as the spec says the smoothing does, one update at `DeltaTime` 1/60 coming from
`LastFocusDistance` 1000 leaves a value that is not the minimum but lies between 15 and 1000,
and coming from `LastFocusDistance` 0 it leaves a value below the minimum. -/
theorem minimum_clamp_not_for_every_smoothing_setting :
    (SampleComponent 0).FocusMethod ≠ ECameraFocusMethod.None ∧
    (SampleComponent 0).DesiredFocusDistance <
      SampleFloatMath.Mul (SampleComponent 0).MinimumFocusDistance
        (SampleFloatMath.Div (SampleComponent 0).WorldToMetersScale 1000) ∧
    SampleFloatMath.Mul (SampleComponent 0).MinimumFocusDistance
        (SampleFloatMath.Div (SampleComponent 0).WorldToMetersScale 1000) = 15 ∧
    (UpdateCameraLensCapture SampleFloatMath (1 / 60) (SampleComponent 0)).CurrentFocusDistance
      ≠ 15 ∧
    15 <
      (UpdateCameraLensCapture SampleFloatMath (1 / 60) (SampleComponent 0)).CurrentFocusDistance ∧
    (UpdateCameraLensCapture SampleFloatMath (1 / 60) (SampleComponent 0)).CurrentFocusDistance
      < 1000 ∧
    (UpdateCameraLensCapture SampleFloatMath (1 / 60)
      { SampleComponent 0 with LastFocusDistance := 0 }).CurrentFocusDistance < 15 := by
  have h1 : (UpdateCameraLensCapture SampleFloatMath (1 / 60)
      (SampleComponent 0)).CurrentFocusDistance = 15030 / 17 := by
    rw [(UpdateCameraLensCapture_focus _ _ _ (by decide)).1]
    norm_num [SampleComponent, SampleFloatMath, SampleInterpTo, FMath.Max]
  have h2 : (UpdateCameraLensCapture SampleFloatMath (1 / 60)
      { SampleComponent 0 with LastFocusDistance := 0 }).CurrentFocusDistance = 30 / 17 := by
    rw [(UpdateCameraLensCapture_focus _ _ _ (by decide)).1]
    norm_num [SampleComponent, SampleFloatMath, SampleInterpTo, FMath.Max]
  refine ⟨by decide, ?_, ?_, ?_, ?_, ?_, ?_⟩
  · norm_num [SampleComponent, SampleFloatMath]
  · norm_num [SampleComponent, SampleFloatMath]
  · rw [h1]; norm_num
  · rw [h1]; norm_num
  · rw [h1]; norm_num
  · rw [h2]; norm_num

/-- C7, amended. Focus method other than `None` and a desired distance below the minimum focus
distance in world units as the code computes it. With smoothing off or a reset pending,
`CurrentFocusDistance`, `LastFocusDistance` and the emitted `DepthOfFieldFocalDistance` equal that
minimum, for every prior `LastFocusDistance` and every `DeltaTime`. With smoothing on and no reset
pending they are what `FInterpTo` returns for the step from `LastFocusDistance` toward that
minimum. This holds whatever the float product and quotient round to and whatever `FInterpTo`
does. -/
theorem minimum_focus_clamp (F : FloatMath) (DeltaTime : ℚ) (c : UCineCameraCaptureComponent)
    (hF : c.FocusMethod ≠ ECameraFocusMethod.None)
    (hBelow : c.DesiredFocusDistance <
      F.Mul c.MinimumFocusDistance (F.Div c.WorldToMetersScale 1000)) :
    ((c.bSmoothFocusChanges = false ∨ c.bResetInterpolation = true) →
      (UpdateCameraLensCapture F DeltaTime c).CurrentFocusDistance =
        F.Mul c.MinimumFocusDistance (F.Div c.WorldToMetersScale 1000) ∧
      (UpdateCameraLensCapture F DeltaTime c).LastFocusDistance =
        F.Mul c.MinimumFocusDistance (F.Div c.WorldToMetersScale 1000) ∧
      (UpdateCameraLensCapture F DeltaTime
        c).CameraLensPostProcessSettings.DepthOfFieldFocalDistance =
        F.Mul c.MinimumFocusDistance (F.Div c.WorldToMetersScale 1000)) ∧
    (c.bSmoothFocusChanges = true → c.bResetInterpolation = false →
      (UpdateCameraLensCapture F DeltaTime c).CurrentFocusDistance =
        F.FInterpTo c.LastFocusDistance
          (F.Mul c.MinimumFocusDistance (F.Div c.WorldToMetersScale 1000)) DeltaTime
          c.FocusSmoothingInterpSpeed ∧
      (UpdateCameraLensCapture F DeltaTime c).LastFocusDistance =
        (UpdateCameraLensCapture F DeltaTime c).CurrentFocusDistance ∧
      (UpdateCameraLensCapture F DeltaTime
        c).CameraLensPostProcessSettings.DepthOfFieldFocalDistance =
        (UpdateCameraLensCapture F DeltaTime c).CurrentFocusDistance) := by
  obtain ⟨hC, hL, hD, _, _⟩ := UpdateCameraLensCapture_focus F DeltaTime c hF
  have hmax : FMath.Max c.DesiredFocusDistance
      (F.Mul c.MinimumFocusDistance (F.Div c.WorldToMetersScale 1000)) =
      F.Mul c.MinimumFocusDistance (F.Div c.WorldToMetersScale 1000) := by
    unfold FMath.Max
    rw [if_neg (not_le.mpr hBelow)]
  rw [hmax] at hC
  constructor
  · intro h
    have hval : (UpdateCameraLensCapture F DeltaTime c).CurrentFocusDistance =
        F.Mul c.MinimumFocusDistance (F.Div c.WorldToMetersScale 1000) := by
      rw [hC]
      rcases h with h | h
      · simp [h]
      · simp [h]
    exact ⟨hval, hL.trans hval, hD.trans hval⟩
  · intro hS hR
    have hval : (UpdateCameraLensCapture F DeltaTime c).CurrentFocusDistance =
        F.FInterpTo c.LastFocusDistance
          (F.Mul c.MinimumFocusDistance (F.Div c.WorldToMetersScale 1000)) DeltaTime
          c.FocusSmoothingInterpSpeed := by
      rw [hC]
      simp [hS, hR]
    exact ⟨hval, hL, hD⟩

/-- Witness for C7, amended: the sample component (desired 5, minimum 15) with smoothing off. -/
theorem minimum_focus_clamp_witness :
    (UpdateCameraLensCapture SampleFloatMath (1 / 60)
      { SampleComponent 0 with bSmoothFocusChanges := false }).CurrentFocusDistance =
      150 * (100 / 1000) :=
  ((minimum_focus_clamp SampleFloatMath (1 / 60)
    { SampleComponent 0 with bSmoothFocusChanges := false }
    (by decide) (by norm_num [SampleComponent, SampleFloatMath])).1 (Or.inl rfl)).1

end CineCapture

namespace CineCapture

/-! ## Hidden and show-only components -/

theorem TArray_AddUnique_Nodup (a : List ObjRef) (Item : ObjRef) (h : a.Nodup) :
    (TArray.AddUnique a Item).Nodup := by
  unfold TArray.AddUnique
  by_cases hm : Item ∈ a
  · rw [if_pos hm]
    exact h
  · rw [if_neg hm]
    refine List.Nodup.append h (List.nodup_singleton _) ?_
    intro x hx hx'
    rw [List.mem_singleton] at hx'
    subst hx'
    exact hm hx

theorem foldl_AddUnique_Nodup (Items : List ObjRef) : ∀ a : List ObjRef, a.Nodup →
    (Items.foldl TArray.AddUnique a).Nodup := by
  induction Items with
  | nil => intro a h; exact h
  | cons x xs ih =>
    intro a h
    rw [List.foldl_cons]
    exact ih _ (TArray_AddUnique_Nodup a x h)

theorem VisibilityCall_run_Hidden_Nodup (call : VisibilityCall) (c : UCineCameraCaptureComponent)
    (h : c.HiddenComponents.Nodup) : (call.run c).HiddenComponents.Nodup := by
  cases call with
  | HideComponent x =>
    cases x with
    | none => exact h
    | some x => exact TArray_AddUnique_Nodup _ _ h
  | HideActorComponents x =>
    cases x with
    | none => exact h
    | some A => exact foldl_AddUnique_Nodup _ _ h
  | ShowOnlyComponent x => cases x <;> exact h
  | ShowOnlyActorComponents x => cases x <;> exact h
  | RemoveShowOnlyComponent x => exact h
  | RemoveShowOnlyActorComponents x => cases x <;> exact h
  | ClearShowOnlyComponents x => exact h
  | ClearHiddenComponents => exact List.nodup_nil

/-- The hidden half of C11 holds: starting from a component whose `HiddenComponents` is empty, no
sequence of calls of the hide / show-only interface leaves a reference in `HiddenComponents`
more than once. -/
theorem HiddenComponents_Nodup (calls : List VisibilityCall) (c : UCineCameraCaptureComponent)
    (h : c.HiddenComponents = []) : (RunVisibilityCalls calls c).HiddenComponents.Nodup := by
  have hN : c.HiddenComponents.Nodup := by rw [h]; exact List.nodup_nil
  clear h
  unfold RunVisibilityCalls
  induction calls generalizing c with
  | nil => exact hN
  | cons call calls ih =>
    rw [List.foldl_cons]
    exact ih _ (VisibilityCall_run_Hidden_Nodup call c hN)

/-- C11, code at the failing input. On a component with empty collections, `ShowOnlyComponent`
called twice with the same component `7` leaves `ShowOnlyComponents` holding `7` twice
(`TArray::Add`), whereas `HideComponent` called twice with it leaves `HiddenComponents` holding
`7` once (`TArray::AddUnique`); `ShowOnlyActorComponents` called twice with one actor doubles
its components in the same way. -/
theorem ShowOnlyComponent_twice_holds_duplicate :
    (SampleComponent 0).ShowOnlyComponents = [] ∧
    (RunVisibilityCalls
      [VisibilityCall.ShowOnlyComponent (some 7), VisibilityCall.ShowOnlyComponent (some 7)]
      (SampleComponent 0)).ShowOnlyComponents = [7, 7] ∧
    List.count 7 (RunVisibilityCalls
      [VisibilityCall.ShowOnlyComponent (some 7), VisibilityCall.ShowOnlyComponent (some 7)]
      (SampleComponent 0)).ShowOnlyComponents = 2 ∧
    (RunVisibilityCalls
      [VisibilityCall.HideComponent (some 7), VisibilityCall.HideComponent (some 7)]
      (SampleComponent 0)).HiddenComponents = [7] ∧
    (RunVisibilityCalls
      [VisibilityCall.ShowOnlyActorComponents (some ⟨[7, 8]⟩),
        VisibilityCall.ShowOnlyActorComponents (some ⟨[7, 8]⟩)]
      (SampleComponent 0)).ShowOnlyComponents = [7, 8, 7, 8] := by
  decide

/-! ## GetViewState: growth -/

theorem padded_length (ViewStates : List (Option Handle)) (n : Nat) :
    (ViewStates ++ List.replicate (n + 1 - ViewStates.length) none).length =
      max ViewStates.length (n + 1) := by
  simp only [List.length_append, List.length_replicate]
  omega

theorem padded_old_slot (ViewStates : List (Option Handle)) (n j : Nat)
    (hj : j < ViewStates.length) :
    (ViewStates ++ List.replicate (n + 1 - ViewStates.length) none)[j]? = ViewStates[j]? :=
  List.getElem?_append_left hj

theorem padded_new_slot (ViewStates : List (Option Handle)) (n j : Nat)
    (hj : ViewStates.length ≤ j)
    (hlt : j < (ViewStates ++ List.replicate (n + 1 - ViewStates.length) none).length) :
    (ViewStates ++ List.replicate (n + 1 - ViewStates.length) none)[j]? = some none := by
  rw [List.getElem?_append_right hj, List.getElem?_replicate]
  simp only [List.length_append, List.length_replicate] at hlt
  have : j - ViewStates.length < n + 1 - ViewStates.length := by omega
  simp [this]

/-- C12, as the claim states it, fails at the largest index. `GetViewState(2147483647)` on a
component holding two view states would have to leave `max(2, 2147483647 + 1) = 2147483648`
slots; `AddZeroed(2147483646)` takes the `int32` element count past `MAX_int32` and has no array
to produce, so the call does not come back and slot 2147483647 is never reached. -/
theorem GetViewState_no_growth_to_MAX_int32 :
    WrapInt32 (2147483647 - 2 + 1) = 2147483646 ∧
    AddZeroed [some 41, some 42] 2147483646 = none ∧
    GetViewState (some 77) 2147483647
      { SampleComponent 0 with ViewStates := [some 41, some 42] } = none := by
  refine ⟨by decide, ?_, ?_⟩
  · unfold AddZeroed
    simp [MAX_int32]
  · unfold GetViewState AddZeroed
    simp [SampleComponent, WrapInt32, MAX_int32]

/-- C12, amended. For an index `i` from 0 to below `MAX_int32` and `ViewStates` of length `n`,
`GetViewState(i)` reaches slot `i` inside the array (the call returns), the length afterwards is
`max(n, i + 1)`, every slot `j < n` other than `i` holds what it held before, and every added
slot other than `i` is empty. -/
theorem GetViewState_grows_zero_filled (Allocated : Option Handle) (ViewIndex : Int)
    (hIndex : 0 ≤ ViewIndex) (hBound : ViewIndex < MAX_int32)
    (c : UCineCameraCaptureComponent) :
    ∃ Result c', GetViewState Allocated ViewIndex c = some (Result, c') ∧
      c'.ViewStates.length = max c.ViewStates.length (ViewIndex.toNat + 1) ∧
      ViewIndex.toNat < c'.ViewStates.length ∧
      (∀ j, j < c.ViewStates.length → j ≠ ViewIndex.toNat →
        c'.ViewStates[j]? = c.ViewStates[j]?) ∧
      (∀ j, c.ViewStates.length ≤ j → j < c'.ViewStates.length → j ≠ ViewIndex.toNat →
        c'.ViewStates[j]? = some none) := by
  obtain ⟨n, rfl⟩ := Int.eq_ofNat_of_zero_le hIndex
  obtain ⟨slot, _, hG⟩ := GetViewState_ofNat Allocated n hBound c
  simp only [Int.toNat_ofNat]
  have hlen := padded_length c.ViewStates n
  have hset : ∀ (w : Option Handle),
      ((c.ViewStates ++ List.replicate (n + 1 - c.ViewStates.length) none).set n w).length =
          max c.ViewStates.length (n + 1) ∧
      (∀ j, j < c.ViewStates.length → j ≠ n →
        ((c.ViewStates ++ List.replicate (n + 1 - c.ViewStates.length) none).set n w)[j]? =
          c.ViewStates[j]?) ∧
      (∀ j, c.ViewStates.length ≤ j →
        j < ((c.ViewStates ++ List.replicate (n + 1 - c.ViewStates.length) none).set n w).length →
        j ≠ n →
        ((c.ViewStates ++ List.replicate (n + 1 - c.ViewStates.length) none).set n w)[j]? =
          some none) := by
    intro w
    refine ⟨by rw [List.length_set, hlen], ?_, ?_⟩
    · intro j hj hne
      rw [List.getElem?_set_ne (fun h => hne h.symm)]
      exact padded_old_slot _ _ _ hj
    · intro j hj hlt hne
      rw [List.length_set] at hlt
      rw [List.getElem?_set_ne (fun h => hne h.symm)]
      exact padded_new_slot _ _ _ hj hlt
  have hpad :
      (c.ViewStates ++ List.replicate (n + 1 - c.ViewStates.length) none).length =
          max c.ViewStates.length (n + 1) ∧
      (∀ j, j < c.ViewStates.length → j ≠ n →
        (c.ViewStates ++ List.replicate (n + 1 - c.ViewStates.length) none)[j]? =
          c.ViewStates[j]?) ∧
      (∀ j, c.ViewStates.length ≤ j →
        j < (c.ViewStates ++ List.replicate (n + 1 - c.ViewStates.length) none).length →
        j ≠ n →
        (c.ViewStates ++ List.replicate (n + 1 - c.ViewStates.length) none)[j]? = some none) :=
    ⟨hlen, fun j hj _ => padded_old_slot _ _ _ hj, fun j hj hlt _ => padded_new_slot _ _ _ hj hlt⟩
  have hbound : n < max c.ViewStates.length (n + 1) := by omega
  by_cases h1 : ((c.bCaptureEveryFrame || c.bAlwaysPersistRenderingState) && slot.isNone) = true
  · rw [if_pos h1] at hG
    obtain ⟨hl, ho, hn⟩ := hset Allocated
    exact ⟨_, _, hG, hl, by rw [hl]; exact hbound, ho, hn⟩
  · rw [if_neg h1] at hG
    by_cases h2 : (!c.bCaptureEveryFrame && slot.isSome && !c.bAlwaysPersistRenderingState) = true
    · rw [if_pos h2] at hG
      obtain ⟨hl, ho, hn⟩ := hset none
      exact ⟨_, _, hG, hl, by rw [hl]; exact hbound, ho, hn⟩
    · rw [if_neg h2] at hG
      obtain ⟨hl, ho, hn⟩ := hpad
      exact ⟨_, _, hG, hl, by rw [hl]; exact hbound, ho, hn⟩

/-- Witness for C12, amended: view index 3 on a component holding the handles 41 and 42 in slots
0 and 1, capturing every frame: the array grows to four slots, slots 0 and 1 keep their handles,
the new slot 2 is empty and slot 3 receives the allocated handle 77. -/
theorem GetViewState_grows_zero_filled_witness :
    GetViewState (some 77) 3 { SampleComponent 0 with ViewStates := [some 41, some 42] } =
      some (some 77,
        { SampleComponent 0 with ViewStates := [some 41, some 42, none, some 77] }) ∧
    ∃ Result c',
      GetViewState (some 77) 3 { SampleComponent 0 with ViewStates := [some 41, some 42] } =
        some (Result, c') ∧
      c'.ViewStates.length = max 2 (3 + 1) :=
  have h := GetViewState_grows_zero_filled (some 77) 3 (by decide) (by decide)
    { SampleComponent 0 with ViewStates := [some 41, some 42] }
  ⟨rfl, h.elim fun r h1 => h1.elim fun c' h2 => ⟨r, c', h2.1, h2.2.1⟩⟩

end CineCapture
